import Mathlib

/-!
Verification of the Seikota trading system (src/core/trading_system.py,
src/utils/supertrend.py) against its natural-language specification.

Modelling conventions (shallow embedding over exact arithmetic):
* Python floats are modelled as rationals (ℚ).  All ℚ values are finite, so
  the source's `np.isfinite` guards are vacuously true in the model; NaN-valued
  cells are modelled as absent (`Option.none`) where the source treats a
  column value as optional.
* `np.std` is the square root of the population variance.  Every comparison
  the source makes against a standard deviation is embedded by the equivalent
  comparison against the variance (for nonnegative both sides, `|x| ≤ 3·σ`
  iff `(x)² ≤ 9·σ²`), keeping everything inside ℚ.
* The instance-level memoisation caches (`_position_size_cache`,
  `_kelly_cache`, `_risk_management_cache`) are elided: they only replay
  previously computed values for a quantised key and are cleared at the start
  of every run (`clear_caches`).  The functions below are the cache-miss
  computations.
* The per-position dictionaries `active_orders[...]` are keyed by the id of
  the single open position; since the loop allows at most one open position
  and clears all entries of an id on exit, they are modelled as a single
  `ActiveOrders` record for the current position.
* `datetime.now()` is modelled as an integer day-count supplied to each loop
  iteration by a clock function; `(now - entry_time).days` becomes integer
  subtraction.
* A Python exception inside one loop iteration is modelled by a fault oracle
  `fault : ℕ → Bool`; a faulted bar executes the `except` branch (appending
  the previous value of every per-bar series) and nothing of the `try` body.
-/

/-- Last element of a list with a default, mirroring Python's
`xs[-1] if xs else d`. -/
def lastD {α : Type} (l : List α) (d : α) : α := l.getD (l.length - 1) d

/-- Python's `min(a, b)` (spelled out so the kernel can evaluate it). -/
def pymin (a b : ℚ) : ℚ := if a ≤ b then a else b

/-- Python's `max(a, b)` (spelled out so the kernel can evaluate it). -/
def pymax (a b : ℚ) : ℚ := if a ≤ b then b else a

/-- Python's `abs(a)` (spelled out so the kernel can evaluate it). -/
def pyabs (a : ℚ) : ℚ := if a < 0 then -a else a

theorem pymin_eq (a b : ℚ) : pymin a b = min a b := (min_def a b).symm

theorem pymax_eq (a b : ℚ) : pymax a b = max a b := (max_def a b).symm

theorem pyabs_eq (a : ℚ) : pyabs a = |a| := by
  unfold pyabs
  rcases lt_or_le a 0 with h | h
  · rw [if_pos h, abs_of_neg h]
  · rw [if_neg (not_lt.mpr h), abs_of_nonneg h]

/-- Arithmetic mean of a list, `np.mean` (division by zero yields 0,
matching ℚ convention; only applied to nonempty lists on reachable paths). -/
def listMean (l : List ℚ) : ℚ := l.sum / l.length

/-- Population variance of a list, `np.var` = `np.std(...)**2`. -/
def listVar (l : List ℚ) : ℚ :=
  (l.map (fun x => (x - listMean l) * (x - listMean l))).sum / l.length

/-- The risk-management parameters of `SeikotaTradingSystem` (`risk_params`
together with the `risk_management_enabled` flag). -/
structure TSParams where
  risk_management_enabled : Bool
  stop_loss_atr_multiplier : ℚ
  take_profit_atr_multiplier : ℚ
  trailing_stop_enabled : Bool
  trailing_stop_atr_multiplier : ℚ
  break_even_stop : Bool
  break_even_atr_threshold : ℚ
  max_position_risk : ℚ
  time_stop_days : ℤ
deriving DecidableEq

/-- The defaults set in `__init__`. -/
def defaultParams : TSParams :=
  { risk_management_enabled := true
    stop_loss_atr_multiplier := 2
    take_profit_atr_multiplier := 3
    trailing_stop_enabled := true
    trailing_stop_atr_multiplier := 3/2
    break_even_stop := true
    break_even_atr_threshold := 1
    max_position_risk := 1/50
    time_stop_days := 10 }

/-- Lines 1112-1127 of `calculate_position_size`: the size before the
[1%, 25%] clamp.  `atr = none` models the Python default `atr=None`. -/
def position_size_pre_clamp (capital f current_price : ℚ) (atr : Option ℚ)
    (risk_per_trade : ℚ) : ℚ :=
  let kelly_amount := capital * f
  let risk_amount := capital * risk_per_trade
  match atr with
  | some a =>
    if 0 < a then
      let stop_loss_pct := 2 * a / current_price
      if 0 < stop_loss_pct then pymin kelly_amount (risk_amount / stop_loss_pct)
      else pymin kelly_amount (risk_amount * 5)
    else pymin kelly_amount (risk_amount * 3)
  | none => pymin kelly_amount (risk_amount * 3)

/-- Embedding of `calculate_position_size` (lines 1073-1150), the cache-miss computation.
`capital` stands for `self.current_capital`.  The `np.isfinite` guards are
vacuous over ℚ. -/
def calculate_position_size (capital f current_price : ℚ) (atr : Option ℚ)
    (risk_per_trade : ℚ) : ℚ :=
  if f ≤ 0 ∨ current_price ≤ 0 ∨ risk_per_trade ≤ 0 then 0
  else if capital ≤ 0 then 0
  else
    let kelly_amount := capital * f
    let risk_amount := capital * risk_per_trade
    let position_size := position_size_pre_clamp capital f current_price atr risk_per_trade
    let position_size := pymin position_size (capital * (1/4))
    let position_size := pymax position_size (capital * (1/100))
    if position_size ≤ 0 ∨ capital < position_size then pymin kelly_amount (risk_amount * 3)
    else position_size

/-- The `trades_array` of `calculate_kelly_fraction` lines 1167-1184: the
input, with points beyond 3 sigma dropped when there are more than 10
samples and the deviation is positive.  The filter
`mean - 3*std ≤ x ≤ mean + 3*std` is embedded as `(x - mean)² ≤ 9 * var`
and `std > 0` as `var > 0`, which keeps the computation inside ℚ. -/
def kelly_trades_array (trades : List ℚ) : List ℚ :=
  if 10 < trades.length then
    let m := listMean trades
    let v := listVar trades
    if 0 < v then trades.filter (fun x => (x - m) * (x - m) ≤ 9 * v) else trades
  else trades

/-- Embedding of `calculate_kelly_fraction` (lines 1153-1231), the cache-miss computation.
`std > 0.001` is embedded as `var > 0.000001`. -/
def calculate_kelly_fraction (trades : List ℚ) : ℚ :=
  if trades.length < 5 then 1/10
  else
    let trades_array := kelly_trades_array trades
    let winning_trades := trades_array.filter (fun x => 0 < x)
    let losing_trades := trades_array.filter (fun x => x < 0)
    if winning_trades.length = 0 ∨ losing_trades.length = 0 then 1/10
    else
      let p : ℚ := (winning_trades.length : ℚ) / (trades_array.length : ℚ)
      let avg_win := listMean winning_trades
      let avg_loss := pyabs (listMean losing_trades)
      if avg_loss < 1/1000 ∨ avg_win < 1/1000 then 1/10
      else
        let win_loss_quotient := avg_win / avg_loss
        let kelly_f := p - (1 - p) / win_loss_quotient
        let mean_return := listMean trades_array
        let var_return := listVar trades_array
        let kelly_f_alt := if 1/1000000 < var_return then mean_return / var_return else 1/10
        let kelly_f := if 0 < kelly_f_alt then pymin kelly_f kelly_f_alt else kelly_f
        let kelly_f := pymax (1/100) (pymin kelly_f (1/4))
        kelly_f * (1/4)

/-- Embedding of `dynamic_risk_management` (lines 864-907), the cache-miss computation. -/
def dynamic_risk_management (current_capital peak_capital base_risk : ℚ) : ℚ :=
  let drawdown :=
    if 0 < peak_capital ∧ 0 < current_capital then
      (peak_capital - current_capital) / peak_capital
    else 0
  let adjusted_risk :=
    if 1/10 ≤ drawdown then base_risk * (1/2)
    else if 1/20 ≤ drawdown then base_risk * (7/10)
    else base_risk * 1
  let adjusted_risk :=
    if peak_capital * (105/100) < current_capital then adjusted_risk * (12/10)
    else adjusted_risk
  pymax (1/200) (pymin adjusted_risk (1/20))

/-- Per-position trailing-stop data (`active_orders['trailing_stop'][pid]`).
`highest_price = none` models the Python initialisation `float('inf')` used
for short positions (a comparison `price > inf` is always false). -/
structure TrailData where
  stop_price : ℚ
  highest_price : Option ℚ
  lowest_price : ℚ
deriving DecidableEq

/-- Per-position time-stop data (`active_orders['time_stop'][pid]`). -/
structure TimeStopData where
  entry_time : ℤ
  max_days : ℤ
deriving DecidableEq

/-- The order state of the (single) open position: the entries of the
`active_orders` dictionaries under its position id. -/
structure ActiveOrders where
  stop_loss : Option ℚ
  take_profit : Option ℚ
  trailing_stop : Option TrailData
  break_even : Bool
  time_stop : Option TimeStopData
deriving DecidableEq

/-- No orders: the dictionaries have no entry for the position id
(also the result of `clear_risk_orders`). -/
def emptyOrders : ActiveOrders :=
  { stop_loss := none, take_profit := none, trailing_stop := none
    break_even := false, time_stop := none }

/-- Result record of `calculate_risk_levels` (the keys the callers read). -/
structure RiskLevels where
  stop_loss : ℚ
  take_profit : ℚ
deriving DecidableEq

/-- Embedding of `calculate_risk_levels` (lines 86-131). -/
def calculate_risk_levels (p : TSParams) (entry_price atr : ℚ)
    (position_type : ℤ) : RiskLevels :=
  if ¬ p.risk_management_enabled then ⟨entry_price, entry_price⟩
  else if atr ≤ 0 ∨ entry_price ≤ 0 then ⟨entry_price, entry_price⟩
  else
    let stop_distance := atr * p.stop_loss_atr_multiplier
    let take_profit_distance := atr * p.take_profit_atr_multiplier
    let stop_loss :=
      if position_type = 1 then entry_price - stop_distance
      else entry_price + stop_distance
    let take_profit :=
      if position_type = 1 then entry_price + take_profit_distance
      else entry_price - take_profit_distance
    let risk_percent := pyabs (stop_loss - entry_price) / entry_price
    let stop_loss :=
      if p.max_position_risk < risk_percent then
        if position_type = 1 then entry_price * (1 - p.max_position_risk)
        else entry_price * (1 + p.max_position_risk)
      else stop_loss
    ⟨stop_loss, take_profit⟩

/-- Embedding of `update_trailing_stop` (lines 135-198).  Returns the updated order state
and the returned `new_stop_price` (`none` when the Python function returns
`None`).  Note two faithful quirks of the source: the dictionary's
`stop_price` keeps the un-ratcheted `current_price - distance` even when the
break-even branch raises the returned value, and the break-even test reads
`highest_price`/`lowest_price` after it has just been overwritten with
`current_price`. -/
def update_trailing_stop (p : TSParams) (orders : ActiveOrders)
    (current_price atr : ℚ) (position_type : ℤ) : ActiveOrders × Option ℚ :=
  match orders.trailing_stop with
  | none =>
    let init : TrailData :=
      { stop_price := orders.stop_loss.getD current_price
        highest_price := if position_type = 1 then some current_price else none
        lowest_price := if position_type = -1 then current_price else 0 }
    ({ orders with trailing_stop := some init }, some init.stop_price)
  | some trail =>
    let trailing_distance := atr * p.trailing_stop_atr_multiplier
    if position_type = 1 then
      match trail.highest_price with
      | some hp =>
        if hp < current_price then
          let new_stop_price := current_price - trailing_distance
          let trail' : TrailData :=
            { trail with highest_price := some current_price, stop_price := new_stop_price }
          if p.break_even_stop ∧
              current_price * (1 + p.break_even_atr_threshold * atr / current_price)
                ≤ current_price then
            ({ orders with trailing_stop := some trail', break_even := true },
              some (pymax new_stop_price (orders.stop_loss.getD current_price)))
          else
            ({ orders with trailing_stop := some trail' }, some new_stop_price)
        else (orders, none)
      | none => (orders, none)
    else
      if current_price < trail.lowest_price then
        let new_stop_price := current_price + trailing_distance
        let trail' : TrailData :=
          { trail with lowest_price := current_price, stop_price := new_stop_price }
        if p.break_even_stop ∧
            current_price ≤
              current_price * (1 - p.break_even_atr_threshold * atr / current_price) then
          ({ orders with trailing_stop := some trail', break_even := true },
            some (pymin new_stop_price (orders.stop_loss.getD current_price)))
        else
          ({ orders with trailing_stop := some trail' }, some new_stop_price)
      else (orders, none)

/-- Embedding of `check_risk_orders` (lines 202-244).  Python's `if stop_loss_price:` is
false both for a missing entry (`None`) and for a level equal to `0.0`,
hence the `getD 0 ≠ 0` guards. -/
def check_risk_orders (orders : ActiveOrders) (current_price : ℚ)
    (position_type : ℤ) : Bool × String × ℚ :=
  let stop_loss_price := orders.stop_loss.getD 0
  if stop_loss_price ≠ 0 ∧
      ((position_type = 1 ∧ current_price ≤ stop_loss_price) ∨
       (position_type = -1 ∧ stop_loss_price ≤ current_price)) then
    (true, "stop_loss", stop_loss_price)
  else
    let take_profit_price := orders.take_profit.getD 0
    if take_profit_price ≠ 0 ∧
        ((position_type = 1 ∧ take_profit_price ≤ current_price) ∨
         (position_type = -1 ∧ current_price ≤ take_profit_price)) then
      (true, "take_profit", take_profit_price)
    else
      match orders.trailing_stop with
      | some trail =>
        if (position_type = 1 ∧ current_price ≤ trail.stop_price) ∨
            (position_type = -1 ∧ trail.stop_price ≤ current_price) then
          (true, "trailing_stop", trail.stop_price)
        else (false, "", 0)
      | none => (false, "", 0)

/-- Embedding of `setup_risk_orders` (lines 249-275).  `now` is the wall-clock day count
of `datetime.now()` at the call. -/
def setup_risk_orders (p : TSParams) (orders : ActiveOrders)
    (entry_price atr : ℚ) (position_type : ℤ) (now : ℤ) : ActiveOrders :=
  if ¬ p.risk_management_enabled then orders
  else
    let risk_levels := calculate_risk_levels p entry_price atr position_type
    let orders := { orders with
      stop_loss := some risk_levels.stop_loss
      take_profit := some risk_levels.take_profit }
    let orders :=
      if p.trailing_stop_enabled then
        (update_trailing_stop p orders entry_price atr position_type).1
      else orders
    { orders with time_stop := some ⟨now, p.time_stop_days⟩ }

/-- Embedding of `check_time_stop` (lines 279-299): `(now - entry_time).days >= max_days`. -/
def check_time_stop (orders : ActiveOrders) (now : ℤ) : Bool :=
  match orders.time_stop with
  | none => false
  | some ts => ts.max_days ≤ now - ts.entry_time

/-- One row of the input table as read by the simulation loop: `close`,
`signal`, and the optional `atr` cell (`none` models both a missing `atr`
column and a NaN cell). -/
structure Bar where
  close : ℚ
  signal : ℤ
  atr : Option ℚ
deriving DecidableEq

instance : Inhabited Bar := ⟨⟨0, 0, none⟩⟩

/-- A record of `trade_history` (the `trade_info` dict of lines 548-564).
The position id `f"L_{i}_{price}"` is modelled structurally as
(side, bar index, price). -/
structure Trade where
  entry_index : ℕ
  exit_index : ℕ
  entry_price : ℚ
  exit_price : ℚ
  position_size : ℚ
  position_type : ℤ
  pnl_percent : ℚ
  pnl_absolute : ℚ
  duration : ℕ
  capital_before : ℚ
  capital_after : ℚ
  exit_reason : String
  position_id : Option (ℤ × ℕ × ℚ)
  stop_loss : Option ℚ
  take_profit : Option ℚ
deriving DecidableEq

/-- The mutable state of `_optimized_simulation_loop` between iterations:
the per-bar history lists (chronological, seed entry first), the loop
variables of lines 389-398, the order state, the trade log and
`self.current_capital`. -/
structure LoopState where
  capital_history : List ℚ
  f_history : List ℚ
  trades_history : List ℚ
  position_size_history : List ℚ
  risk_history : List ℚ
  drawdown_history : List ℚ
  position_type_history : List ℤ
  stop_loss_history : List ℚ
  take_profit_history : List ℚ
  exit_reason_history : List String
  current_f : ℚ
  current_risk : ℚ
  peak_capital : ℚ
  position_size : ℚ
  entry_price : ℚ
  entry_index : ℕ
  position_type : ℤ
  in_position : Bool
  current_position_id : Option (ℤ × ℕ × ℚ)
  orders : ActiveOrders
  trade_history : List Trade
  sys_current_capital : ℚ
deriving DecidableEq

/-- Lines 375-398: the histories seeded with the bar-0 values and the
initial loop variables.  `sys_current_capital` is `self.current_capital`,
set to `self.initial_capital` by `simulate_trading` before the loop. -/
def initLoopState (initial_capital initial_f risk_per_trade : ℚ) : LoopState :=
  { capital_history := [initial_capital]
    f_history := [initial_f]
    trades_history := []
    position_size_history := [0]
    risk_history := [risk_per_trade]
    drawdown_history := [0]
    position_type_history := [0]
    stop_loss_history := [0]
    take_profit_history := [0]
    exit_reason_history := [""]
    current_f := initial_f
    current_risk := risk_per_trade
    peak_capital := initial_capital
    position_size := 0
    entry_price := 0
    entry_index := 0
    position_type := 0
    in_position := false
    current_position_id := none
    orders := emptyOrders
    trade_history := []
    sys_current_capital := initial_capital }

/-- The exit decision threaded through one iteration
(`exit_trade`, `exit_reason`, `exit_price` of lines 434-438). -/
structure ExitDecision where
  exit_trade : Bool
  exit_reason : String
  exit_price : ℚ
deriving DecidableEq

/-- Lines 406-411: the bar's close, clamped to the previous close when
non-positive (`0.01` on the impossible first-bar case). -/
def stepPrice (bars : List Bar) (i : ℕ) : ℚ :=
  if (bars.getD i default).close ≤ 0 then
    (if 0 < i then (bars.getD (i - 1) default).close else 1/100)
  else (bars.getD i default).close

/-- Lines 418-421: the risk-per-trade used on this bar (dynamic risk from
the latest capital and peak when enabled, else the carried value). -/
def stepRisk (risk_per_trade : ℚ) (use_dynamic_risk : Bool) (st : LoopState) : ℚ :=
  if use_dynamic_risk then
    dynamic_risk_management (lastD st.capital_history 0)
      (pymax st.peak_capital (lastD st.capital_history 0)) risk_per_trade
  else st.current_risk

/-- Lines 482-484 / 500-502: the size the loop requests from the sizer when
it evaluates an entry on bar `i`. -/
def entrySize (risk_per_trade : ℚ) (use_dynamic_risk : Bool) (bars : List Bar)
    (i : ℕ) (st : LoopState) : ℚ :=
  calculate_position_size st.sys_current_capital st.current_f (stepPrice bars i)
    (bars.getD i default).atr (stepRisk risk_per_trade use_dynamic_risk st)

/-- One non-faulting iteration of the simulation loop: the `try` body of
lines 402-607 for bar `i`, in source order.  `now` is the wall-clock day
count of this iteration. -/
def barStep (p : TSParams) (risk_per_trade : ℚ) (use_dynamic_risk : Bool)
    (bars : List Bar) (i : ℕ) (now : ℤ) (st : LoopState) : LoopState :=
  -- lines 404-407: read current data
  let current_capital := lastD st.capital_history 0
  let bar := bars.getD i default
  let signal := bar.signal
  let atr := bar.atr
  -- lines 410-411: clamp a non-positive price to the previous close
  let current_price := stepPrice bars i
  -- lines 414-415: drawdown bookkeeping
  let peak_capital := pymax st.peak_capital current_capital
  let current_drawdown :=
    if 0 < peak_capital then (peak_capital - current_capital) / peak_capital else 0
  -- lines 418-421: dynamic risk
  let current_risk := stepRisk risk_per_trade use_dynamic_risk st
  -- lines 424-431: unrealized PnL of an open position
  let unrealized_pnl :=
    if st.in_position ∧ 0 < st.position_size ∧ 0 < st.entry_price then
      if st.position_type = 1 then
        (current_price - st.entry_price) / st.entry_price * st.position_size
      else if st.position_type = -1 then
        (st.entry_price - current_price) / st.entry_price * st.position_size
      else 0
    else 0
  -- lines 441-450: risk-order check for the active position
  let rmActive : Bool :=
    st.in_position && st.current_position_id.isSome && p.risk_management_enabled
  let d0 : ExitDecision := ⟨false, "signal", current_price⟩
  let d1 : ExitDecision :=
    if rmActive then
      let c := check_risk_orders st.orders current_price st.position_type
      if c.1 then ⟨true, c.2.1, c.2.2⟩ else d0
    else d0
  -- lines 455-477: re-arm orders when ATR is present, otherwise check the
  -- time stop; then update the trailing stop (only with ATR present)
  let step2 : ActiveOrders × ExitDecision :=
    if rmActive then
      match atr with
      | some a =>
        let orders1 := setup_risk_orders p st.orders st.entry_price a st.position_type now
        let orders2 :=
          if p.trailing_stop_enabled then
            let r := update_trailing_stop p orders1 current_price a st.position_type
            match r.2 with
            | some new_stop => if new_stop ≠ 0 then { r.1 with stop_loss := some new_stop } else r.1
            | none => r.1
          else orders1
        (orders2, d1)
      | none =>
        let d2 := if check_time_stop st.orders now then ⟨true, "time_stop", current_price⟩ else d1
        (st.orders, d2)
    else (st.orders, d1)
  let ordersA := step2.1
  let dA := step2.2
  -- lines 479-533: entry logic when flat, signal-based exit when in position
  let entryExit :
      ℚ × ℚ × ℕ × ℤ × Bool × Option (ℤ × ℕ × ℚ) × ActiveOrders × ExitDecision × ℚ × ℚ :=
    if ¬ st.in_position then
      if signal = 1 then
        let position_size := entrySize risk_per_trade use_dynamic_risk bars i st
        if 0 < position_size ∧ 0 < current_price then
          let ordersB :=
            match atr with
            | some a => setup_risk_orders p ordersA current_price a 1 now
            | none => ordersA
          (position_size, current_price, i, 1, true, some (1, i, current_price), ordersB, dA, 0, 0)
        else
          (position_size, st.entry_price, st.entry_index, st.position_type, false,
            st.current_position_id, ordersA, dA, 0, 0)
      else if signal = 0 then
        let position_size := entrySize risk_per_trade use_dynamic_risk bars i st
        if 0 < position_size ∧ 0 < current_price then
          let ordersB :=
            match atr with
            | some a => setup_risk_orders p ordersA current_price a (-1) now
            | none => ordersA
          (position_size, current_price, i, -1, true, some (-1, i, current_price), ordersB, dA, 0, 0)
        else
          (position_size, st.entry_price, st.entry_index, st.position_type, false,
            st.current_position_id, ordersA, dA, 0, 0)
      else
        (st.position_size, st.entry_price, st.entry_index, st.position_type, false,
          st.current_position_id, ordersA, dA, 0, 0)
    else if ¬ dA.exit_trade then
      if st.position_type = 1 ∧ signal = 0 then
        let price_change_pct := (current_price - st.entry_price) / st.entry_price
        (st.position_size, st.entry_price, st.entry_index, st.position_type, true,
          st.current_position_id, ordersA, ⟨true, "signal_sell", dA.exit_price⟩,
          price_change_pct, price_change_pct * st.position_size)
      else if st.position_type = -1 ∧ signal = 1 then
        let price_change_pct := (st.entry_price - current_price) / st.entry_price
        (st.position_size, st.entry_price, st.entry_index, st.position_type, true,
          st.current_position_id, ordersA, ⟨true, "signal_buy", dA.exit_price⟩,
          price_change_pct, price_change_pct * st.position_size)
      else
        (st.position_size, st.entry_price, st.entry_index, st.position_type, true,
          st.current_position_id, ordersA, dA, 0, 0)
    else
      (st.position_size, st.entry_price, st.entry_index, st.position_type, true,
        st.current_position_id, ordersA, dA, 0, 0)
  let position_size := entryExit.1
  let entry_price := entryExit.2.1
  let entry_index := entryExit.2.2.1
  let position_type := entryExit.2.2.2.1
  let in_position := entryExit.2.2.2.2.1
  let position_id := entryExit.2.2.2.2.2.1
  let ordersB := entryExit.2.2.2.2.2.2.1
  let dB := entryExit.2.2.2.2.2.2.2.1
  let trade_result_pct0 := entryExit.2.2.2.2.2.2.2.2.1
  let trade_result0 := entryExit.2.2.2.2.2.2.2.2.2
  -- lines 536-582: exit processing
  let exitNow : Bool := dB.exit_trade && in_position
  let riskReason : Bool :=
    ["stop_loss", "take_profit", "trailing_stop", "time_stop"].contains dB.exit_reason
  let trade_result_pct :=
    if exitNow ∧ riskReason then
      if position_type = 1 then (dB.exit_price - entry_price) / entry_price
      else (entry_price - dB.exit_price) / entry_price
    else trade_result_pct0
  let trade_result :=
    if exitNow ∧ riskReason then trade_result_pct * position_size else trade_result0
  let trade : Trade :=
    { entry_index := entry_index
      exit_index := i
      entry_price := entry_price
      exit_price := dB.exit_price
      position_size := position_size
      position_type := position_type
      pnl_percent := trade_result_pct * 100
      pnl_absolute := trade_result
      duration := i - entry_index
      capital_before := current_capital
      capital_after := current_capital + trade_result
      exit_reason := dB.exit_reason
      position_id := position_id
      stop_loss := ordersB.stop_loss
      take_profit := ordersB.take_profit }
  let trade_history := if exitNow then st.trade_history ++ [trade] else st.trade_history
  let trades_history :=
    if exitNow then st.trades_history ++ [trade_result_pct] else st.trades_history
  let current_capital' := if exitNow then current_capital + trade_result else current_capital
  let current_f :=
    if exitNow ∧ 10 ≤ trades_history.length then
      calculate_kelly_fraction (trades_history.drop (trades_history.length - 10))
    else st.current_f
  let ordersC := if exitNow then emptyOrders else ordersB
  let position_size' := if exitNow then 0 else position_size
  let position_type' := if exitNow then 0 else position_type
  let in_position' := if exitNow then false else in_position
  let position_id' := if exitNow then none else position_id
  -- lines 585-590: snapshot of the current risk levels
  let current_stop_loss :=
    if in_position' && position_id'.isSome then ordersC.stop_loss.getD 0 else 0
  let current_take_profit :=
    if in_position' && position_id'.isSome then ordersC.take_profit.getD 0 else 0
  -- lines 593-607: history append and capital update (clamped at 0)
  let total_capital := pymax (current_capital' + unrealized_pnl) 0
  { capital_history := st.capital_history ++ [total_capital]
    f_history := st.f_history ++ [current_f]
    trades_history := trades_history
    position_size_history := st.position_size_history ++ [position_size']
    risk_history := st.risk_history ++ [current_risk]
    drawdown_history := st.drawdown_history ++ [current_drawdown]
    position_type_history := st.position_type_history ++ [position_type']
    stop_loss_history := st.stop_loss_history ++ [current_stop_loss]
    take_profit_history := st.take_profit_history ++ [current_take_profit]
    exit_reason_history :=
      st.exit_reason_history ++ [if dB.exit_trade then dB.exit_reason else ""]
    current_f := current_f
    current_risk := current_risk
    peak_capital := peak_capital
    position_size := position_size'
    entry_price := entry_price
    entry_index := entry_index
    position_type := position_type'
    in_position := in_position'
    current_position_id := position_id'
    orders := ordersC
    trade_history := trade_history
    sys_current_capital := total_capital }

/-- The `except` branch of lines 609-619: every per-bar series gets its own
previous value appended (with the written fallback defaults for the
impossible empty case); no loop variable changes. -/
def faultStep (initial_capital initial_f risk_per_trade : ℚ) (st : LoopState) : LoopState :=
  { st with
    capital_history := st.capital_history ++ [lastD st.capital_history initial_capital]
    f_history := st.f_history ++ [lastD st.f_history initial_f]
    position_size_history := st.position_size_history ++ [lastD st.position_size_history 0]
    risk_history := st.risk_history ++ [lastD st.risk_history risk_per_trade]
    drawdown_history := st.drawdown_history ++ [lastD st.drawdown_history 0]
    position_type_history := st.position_type_history ++ [lastD st.position_type_history 0]
    stop_loss_history := st.stop_loss_history ++ [lastD st.stop_loss_history 0]
    take_profit_history := st.take_profit_history ++ [lastD st.take_profit_history 0]
    exit_reason_history := st.exit_reason_history ++ [lastD st.exit_reason_history ""] }

/-- The state after the loop has processed bars `1 .. k`:
`for i in range(1, len(data))` truncated after `k` iterations.
Bar `i` runs the `try` body unless the fault oracle marks it. -/
def runUpTo (p : TSParams) (initial_capital initial_f risk_per_trade : ℚ)
    (use_dynamic_risk : Bool) (bars : List Bar) (clock : ℕ → ℤ)
    (fault : ℕ → Bool) : ℕ → LoopState
  | 0 => initLoopState initial_capital initial_f risk_per_trade
  | k + 1 =>
    let st := runUpTo p initial_capital initial_f risk_per_trade use_dynamic_risk bars clock fault k
    if fault (k + 1) then faultStep initial_capital initial_f risk_per_trade st
    else barStep p risk_per_trade use_dynamic_risk bars (k + 1) (clock (k + 1)) st

/-- The full loop: `for i in range(1, len(data))`. -/
def runLoop (p : TSParams) (initial_capital initial_f risk_per_trade : ℚ)
    (use_dynamic_risk : Bool) (bars : List Bar) (clock : ℕ → ℤ)
    (fault : ℕ → Bool) : LoopState :=
  runUpTo p initial_capital initial_f risk_per_trade use_dynamic_risk bars clock fault
    (bars.length - 1)

/-- The computed columns attached to `result_data = data.iloc[1:]`
(lines 621-653). `rows = len(data) - 1`. -/
structure ResultTable where
  rows : ℕ
  capital : List ℚ
  kelly_f : List ℚ
  position_size : List ℚ
  risk_level : List ℚ
  drawdown : List ℚ
  position_type : List ℤ
  stop_loss_level : List ℚ
  take_profit_level : List ℚ
  exit_reason : List String
deriving DecidableEq

/-- Lines 636-651: each column is the history minus its seed entry when the
lengths line up, otherwise the written constant fallback column. -/
def buildResult (initial_capital initial_f risk_per_trade : ℚ) (n : ℕ)
    (st : LoopState) : ResultTable :=
  let rows := n - 1
  { rows := rows
    capital :=
      if 1 < st.capital_history.length ∧ st.capital_history.length - 1 = rows then
        st.capital_history.drop 1
      else List.replicate rows initial_capital
    kelly_f :=
      if 1 < st.f_history.length then st.f_history.drop 1
      else List.replicate rows initial_f
    position_size :=
      if 1 < st.position_size_history.length then st.position_size_history.drop 1
      else List.replicate rows 0
    risk_level :=
      if 1 < st.risk_history.length then st.risk_history.drop 1
      else List.replicate rows risk_per_trade
    drawdown :=
      if 1 < st.drawdown_history.length then st.drawdown_history.drop 1
      else List.replicate rows 0
    position_type :=
      if 1 < st.position_type_history.length then st.position_type_history.drop 1
      else List.replicate rows 0
    stop_loss_level :=
      if 1 < st.stop_loss_history.length then st.stop_loss_history.drop 1
      else List.replicate rows 0
    take_profit_level :=
      if 1 < st.take_profit_history.length then st.take_profit_history.drop 1
      else List.replicate rows 0
    exit_reason :=
      if 1 < st.exit_reason_history.length then st.exit_reason_history.drop 1
      else List.replicate rows "" }

/-- One OHLC row as used by `calculate_supertrend` and `calculate_atr`. -/
structure OHLC where
  high : ℚ
  low : ℚ
  close : ℚ
deriving DecidableEq

instance : Inhabited OHLC := ⟨⟨0, 0, 0⟩⟩

/-- Embedding of `calculate_true_range` (supertrend.py lines 137-156, identical to the
TR of `calculate_atr` lines 1058-1061): at row 0 the shifted previous close
is NaN and pandas' row-max skips it, leaving `high - low`. -/
def trAt (bars : List OHLC) (i : ℕ) : ℚ :=
  let b := bars.getD i default
  if i = 0 then b.high - b.low
  else
    let prev_close := (bars.getD (i - 1) default).close
    pymax (b.high - b.low)
      (pymax (pyabs (b.high - prev_close)) (pyabs (b.low - prev_close)))

/-- Value of `tr.rolling(period, min_periods=1).mean()` at row `i`: the mean of the
last `min(period, i+1)` true ranges. -/
def atrAt (bars : List OHLC) (period i : ℕ) : ℚ :=
  let window := ((List.range (i + 1)).drop (i + 1 - period)).map (trAt bars)
  window.sum / window.length

/-- Value of `hl2 = (high + low) / 2` at row `i`. -/
def hl2At (bars : List OHLC) (i : ℕ) : ℚ :=
  ((bars.getD i default).high + (bars.getD i default).low) / 2

/-- Value of `basic_upper = hl2 + multiplier * atr` at row `i`. -/
def basicUpperAt (bars : List OHLC) (period : ℕ) (mult : ℚ) (i : ℕ) : ℚ :=
  hl2At bars i + mult * atrAt bars period i

/-- Value of `basic_lower = hl2 - multiplier * atr` at row `i`. -/
def basicLowerAt (bars : List OHLC) (period : ℕ) (mult : ℚ) (i : ℕ) : ℚ :=
  hl2At bars i - mult * atrAt bars period i

/-- The per-row state of the SuperTrend recursion: the final bands, the
direction and the plotted line. -/
structure STState where
  final_upper : ℚ
  final_lower : ℚ
  direction : ℤ
  line : ℚ
deriving DecidableEq

/-- Initialisation at the first valid row (supertrend.py lines 64-73).
With exact arithmetic the ATR is defined from row 0 (`min_periods=1`),
so `start_idx = 0`. -/
def supertrendInit (bu bl close : ℚ) : STState :=
  if close ≤ bu then ⟨bu, bl, -1, bu⟩ else ⟨bu, bl, 1, bl⟩

/-- One step of the SuperTrend recursion (supertrend.py lines 79-107). -/
def supertrendStep (bu bl prev_close close : ℚ) (prev : STState) : STState :=
  let final_upper := if bu < prev.final_upper ∨ prev.final_upper < prev_close then bu else prev.final_upper
  let final_lower := if prev.final_lower < bl ∨ prev_close < prev.final_lower then bl else prev.final_lower
  if prev.direction = 1 then
    if close ≤ final_lower then ⟨final_upper, final_lower, -1, final_upper⟩
    else ⟨final_upper, final_lower, 1, final_lower⟩
  else
    if final_upper ≤ close then ⟨final_upper, final_lower, 1, final_lower⟩
    else ⟨final_upper, final_lower, -1, final_upper⟩

/-- The SuperTrend state at row `i` (`calculate_supertrend`). -/
def stAt (bars : List OHLC) (period : ℕ) (mult : ℚ) : ℕ → STState
  | 0 =>
    supertrendInit (basicUpperAt bars period mult 0) (basicLowerAt bars period mult 0)
      ((bars.getD 0 default).close)
  | i + 1 =>
    supertrendStep (basicUpperAt bars period mult (i + 1))
      (basicLowerAt bars period mult (i + 1))
      ((bars.getD i default).close) ((bars.getD (i + 1) default).close)
      (stAt bars period mult i)

/-- The signal loop of `supertrend_strategy` (lines 998-1022): hold 1 while
the direction is 1 starting from a direction change (or from row 0 if it
starts up), else hold 0. -/
def supertrendSignalAt (dir : ℕ → ℤ) : ℕ → ℤ
  | 0 => if dir 0 = 1 then 1 else 0
  | i + 1 =>
    if dir (i + 1) ≠ dir i then (if dir (i + 1) = 1 then 1 else 0)
    else supertrendSignalAt dir i

/-- A plain price series as an OHLC table with `high = low = close`
(one price per bar). -/
def closesToBars (closes : List ℚ) : List OHLC :=
  closes.map (fun c => ⟨c, c, c⟩)

/-- The table handed to the loop by `simulate_trading` with
`strategy_type='supertrend'`: the SuperTrend signal column (period/multiplier
of the strategy) and the `atr` column of `calculate_atr` with period 14. -/
def simDataBars (closes : List ℚ) (st_period : ℕ) (st_mult : ℚ) : List Bar :=
  (List.range closes.length).map (fun i =>
    { close := closes.getD i 0
      signal := supertrendSignalAt
        (fun j => (stAt (closesToBars closes) st_period st_mult j).direction) i
      atr := some (atrAt (closesToBars closes) 14 i) })

/-- Run of `simulate_trading` with the SuperTrend strategy and risk management
disabled, run on a plain price series (no faults; `clock` is the wall
clock). -/
def supertrendRun (closes : List ℚ) (initial_capital initial_f risk_per_trade : ℚ)
    (use_dynamic_risk : Bool) (clock : ℕ → ℤ) : LoopState :=
  runLoop { defaultParams with risk_management_enabled := false }
    initial_capital initial_f risk_per_trade use_dynamic_risk
    (simDataBars closes 10 3) clock (fun _ => false)

/-! ## Helper lemmas -/

/-- With all of capital, Kelly fraction, price and risk positive, the clamped
position size lies in [1%, 25%] of capital (for any optional ATR). -/
theorem calculate_position_size_bounds (capital f price : ℚ) (atr : Option ℚ) (risk : ℚ)
    (hc : 0 < capital) (hf : 0 < f) (hp : 0 < price) (hr : 0 < risk) :
    capital * (1/100) ≤ calculate_position_size capital f price atr risk ∧
    calculate_position_size capital f price atr risk ≤ capital * (1/4) := by
  unfold calculate_position_size
  have h1 : ¬ (f ≤ 0 ∨ price ≤ 0 ∨ risk ≤ 0) := by push_neg; exact ⟨hf, hp, hr⟩
  have h2 : ¬ capital ≤ 0 := not_le.mpr hc
  rw [if_neg h1, if_neg h2]
  simp only [pymin_eq, pymax_eq]
  set v := max (min (position_size_pre_clamp capital f price atr risk) (capital * (1/4)))
    (capital * (1/100)) with hv
  have hlo : capital * (1/100) ≤ v := le_max_right _ _
  have hhi : v ≤ capital * (1/4) := by
    apply max_le (min_le_right _ _)
    nlinarith
  have h3 : ¬ (v ≤ 0 ∨ capital < v) := by
    push_neg
    constructor
    · exact lt_of_lt_of_le (by nlinarith) hlo
    · exact le_trans hhi (by nlinarith)
  rw [if_neg h3]
  exact ⟨hlo, hhi⟩

/-- The final Kelly clamp `max(0.01, min(f, 0.25)) * 0.25` always lands in
[1/400, 1/16]. -/
theorem kelly_clamp_bounds (x : ℚ) :
    1/400 ≤ pymax (1/100) (pymin x (1/4)) * (1/4) ∧
    pymax (1/100) (pymin x (1/4)) * (1/4) ≤ 1/16 := by
  rw [pymin_eq, pymax_eq]
  have h1 : (1/100 : ℚ) ≤ max (1/100) (min x (1/4)) := le_max_left _ _
  have h2 : max (1/100) (min x (1/4)) ≤ 1/4 :=
    max_le (by norm_num) (min_le_right _ _)
  constructor
  · nlinarith
  · nlinarith

/-! ## C1: the two fallback branches of the position sizer -/

/-- C1, counterexample: with valid positive inputs and ATR supplied but
exactly zero, the pre-clamp size is `min(kellyAmount, riskAmount*3)` — not
`min(kellyAmount, riskAmount*5)` as claimed (with capital 100000, f 0.2,
price 100, risk 0.01 the two differ: 3000 vs 5000). -/
theorem C1_counterexample :
    position_size_pre_clamp 100000 (1/5) 100 (some 0) (1/100) =
      pymin (100000 * (1/5)) (100000 * (1/100) * 3) ∧
    position_size_pre_clamp 100000 (1/5) 100 (some 0) (1/100) = 3000 ∧
    position_size_pre_clamp 100000 (1/5) 100 (some 0) (1/100) ≠
      pymin (100000 * (1/5)) (100000 * (1/100) * 5) := by
  refine ⟨?_, ?_, ?_⟩ <;> norm_num [position_size_pre_clamp, pymin]

/-- C1, amended: ATR supplied but exactly zero and ATR not supplied at all
take the same fallback, `min(kellyAmount, riskAmount*3)` (the guard is
`atr is not None and atr > 0`, so `atr == 0` falls into the `else`); the
`riskAmount*5` branch would need `atr > 0` together with
`2*atr/price <= 0` and is unreachable for a positive price in exact
arithmetic: with `atr > 0` and `price > 0` the volatility branch is taken. -/
theorem C1_theorem (capital f price risk a : ℚ) :
    position_size_pre_clamp capital f price (some 0) risk =
      pymin (capital * f) (capital * risk * 3) ∧
    position_size_pre_clamp capital f price none risk =
      pymin (capital * f) (capital * risk * 3) ∧
    (0 < price → 0 < a →
      position_size_pre_clamp capital f price (some a) risk =
        pymin (capital * f) (capital * risk / (2 * a / price))) := by
  refine ⟨?_, rfl, ?_⟩
  · norm_num [position_size_pre_clamp]
  · intro hp ha
    have h2 : 0 < 2 * a / price := by positivity
    simp only [position_size_pre_clamp, if_pos ha, if_pos h2]

/-- Witness for C1_theorem at capital 100000, f 1/5, price 100, atr 2,
risk 1/100. -/
theorem C1_theorem_witness :
    (0 : ℚ) < 100 ∧ (0 : ℚ) < 2 ∧
    position_size_pre_clamp 100000 (1/5) 100 (some 2) (1/100) =
      pymin (100000 * (1/5)) (100000 * (1/100) / (2 * 2 / 100)) := by
  exact ⟨by norm_num, by norm_num,
    (C1_theorem 100000 (1/5) 100 (1/100) 2).2.2 (by norm_num) (by norm_num)⟩

/-! ## C7: positive sizes are clamped to [1%, 25%] of capital -/

/-- C7, counterexample: an ATR that is supplied but `<= 0` does not force a
zero size — with capital 100000, f 0.1, price 100, ATR 0, risk 0.01 the
sizer returns 3000, not 0. -/
theorem C7_counterexample :
    calculate_position_size 100000 (1/10) 100 (some 0) (1/100) = 3000 ∧
    (3000 : ℚ) ≠ 0 := by
  refine ⟨?_, by norm_num⟩
  norm_num [calculate_position_size, position_size_pre_clamp, pymin, pymax]

/-- C7, amended: the sizer returns 0 whenever the Kelly fraction, the price
or the risk-per-trade is `<= 0` or the capital is `<= 0` (non-finite floats
are outside the exact-arithmetic model), and every strictly positive return
value lies between 1% and 25% of the current capital inclusive.  An ATR
`<= 0` is not a zero case: it selects the `riskAmount*3` fallback and the
result is still clamped positive. -/
theorem C7_theorem (capital f price : ℚ) (atr : Option ℚ) (risk : ℚ) :
    ((f ≤ 0 ∨ price ≤ 0 ∨ risk ≤ 0 ∨ capital ≤ 0) →
      calculate_position_size capital f price atr risk = 0) ∧
    (0 < calculate_position_size capital f price atr risk →
      capital * (1/100) ≤ calculate_position_size capital f price atr risk ∧
      calculate_position_size capital f price atr risk ≤ capital * (1/4)) := by
  constructor
  · intro h
    by_cases h1 : f ≤ 0 ∨ price ≤ 0 ∨ risk ≤ 0
    · unfold calculate_position_size
      rw [if_pos h1]
    · have h2 : capital ≤ 0 := by tauto
      unfold calculate_position_size
      rw [if_neg h1, if_pos h2]
  · intro hpos
    by_cases h1 : f ≤ 0 ∨ price ≤ 0 ∨ risk ≤ 0
    · exfalso
      have : calculate_position_size capital f price atr risk = 0 := by
        unfold calculate_position_size; rw [if_pos h1]
      rw [this] at hpos; exact lt_irrefl 0 hpos
    · by_cases h2 : capital ≤ 0
      · exfalso
        have : calculate_position_size capital f price atr risk = 0 := by
          unfold calculate_position_size; rw [if_neg h1, if_pos h2]
        rw [this] at hpos; exact lt_irrefl 0 hpos
      · push_neg at h1 h2
        exact calculate_position_size_bounds capital f price atr risk h2 h1.1 h1.2.1 h1.2.2

/-- Witness for C7_theorem: capital 100000, f 0.1, price 100, ATR 2,
risk 0.01 gives 10000, inside [1000, 25000]. -/
theorem C7_theorem_witness :
    (0 : ℚ) < calculate_position_size 100000 (1/10) 100 (some 2) (1/100) ∧
    100000 * (1/100 : ℚ) ≤ calculate_position_size 100000 (1/10) 100 (some 2) (1/100) ∧
    calculate_position_size 100000 (1/10) 100 (some 2) (1/100) ≤ 100000 * (1/4 : ℚ) := by
  have hpos : (0 : ℚ) < calculate_position_size 100000 (1/10) 100 (some 2) (1/100) := by
    norm_num [calculate_position_size, position_size_pre_clamp, pymin, pymax]
  exact ⟨hpos, (C7_theorem 100000 (1/10) 100 (some 2) (1/100)).2 hpos⟩

/-! ## C3: range of the Kelly fraction -/

/-- Every element of the (possibly 3-sigma-filtered) trades array comes from
the input list. -/
theorem kelly_trades_array_subset (trades : List ℚ) :
    ∀ x ∈ kelly_trades_array trades, x ∈ trades := by
  intro x hx
  simp only [kelly_trades_array] at hx
  split_ifs at hx
  · exact (List.mem_filter.mp hx).1
  · exact hx
  · exact hx

/-- The Kelly estimator either returns the 0.1 fallback or the final clamp
expression. -/
theorem kelly_value_cases (trades : List ℚ) :
    calculate_kelly_fraction trades = 1/10 ∨
    ∃ x, calculate_kelly_fraction trades = pymax (1/100) (pymin x (1/4)) * (1/4) := by
  simp only [calculate_kelly_fraction]
  split_ifs <;>
    first
      | exact Or.inl rfl
      | exact Or.inr ⟨_, rfl⟩

/-- C3, counterexample: five trades with both a winner and a loser, all of
magnitude 1/2000 < 0.001, make the estimator return the 0.1 fallback (the
`avg_win < 0.001` guard), which is outside the claimed [0.0025, 0.0625]. -/
theorem C3_counterexample :
    5 ≤ ([1/2000, -1/2000, 1/2000, -1/2000, 1/2000] : List ℚ).length ∧
    ((0:ℚ) < 1/2000 ∧ (1/2000 : ℚ) ∈ ([1/2000, -1/2000, 1/2000, -1/2000, 1/2000] : List ℚ)) ∧
    ((-1/2000 : ℚ) < 0 ∧ (-1/2000 : ℚ) ∈ ([1/2000, -1/2000, 1/2000, -1/2000, 1/2000] : List ℚ)) ∧
    calculate_kelly_fraction [1/2000, -1/2000, 1/2000, -1/2000, 1/2000] = 1/10 ∧
    ¬(1/400 ≤ (1/10 : ℚ) ∧ (1/10 : ℚ) ≤ 1/16) := by
  refine ⟨by norm_num, ⟨by norm_num, by norm_num⟩, ⟨by norm_num, by norm_num⟩, ?_, by norm_num⟩
  norm_num [calculate_kelly_fraction, kelly_trades_array, listMean, pyabs, List.filter]

/-- C3, amended: the estimator always returns either exactly 0.1 or a value
in [0.0025, 0.0625]; it returns exactly 0.1 for fewer than 5 trades and for
all-same-sign lists.  A list with at least 5 trades, a winner and a loser
can still fall back to 0.1 — when the average win or the average loss
magnitude is below 0.001, or when the 3-sigma filter (applied above 10
samples) leaves one class empty — so [0.0025, 0.0625] is not guaranteed for
such lists. -/
theorem C3_theorem (trades : List ℚ) :
    (calculate_kelly_fraction trades = 1/10 ∨
      (1/400 ≤ calculate_kelly_fraction trades ∧ calculate_kelly_fraction trades ≤ 1/16)) ∧
    (trades.length < 5 → calculate_kelly_fraction trades = 1/10) ∧
    ((∀ x ∈ trades, 0 < x) → calculate_kelly_fraction trades = 1/10) ∧
    ((∀ x ∈ trades, x < 0) → calculate_kelly_fraction trades = 1/10) := by
  have hshort : trades.length < 5 → calculate_kelly_fraction trades = 1/10 := by
    intro h
    unfold calculate_kelly_fraction
    rw [if_pos h]
  refine ⟨?_, hshort, ?_, ?_⟩
  · rcases kelly_value_cases trades with h | ⟨x, hx⟩
    · exact Or.inl h
    · right; rw [hx]; exact kelly_clamp_bounds x
  · intro hpos
    by_cases hlen : trades.length < 5
    · exact hshort hlen
    · have hlos : ((kelly_trades_array trades).filter (fun x => x < 0)).length = 0 := by
        rw [List.length_eq_zero, List.filter_eq_nil_iff]
        intro a ha
        simp only [decide_eq_true_eq, not_lt]
        exact le_of_lt (hpos a (kelly_trades_array_subset trades a ha))
      unfold calculate_kelly_fraction
      rw [if_neg hlen]
      simp only
      rw [if_pos (Or.inr hlos)]
  · intro hneg
    by_cases hlen : trades.length < 5
    · exact hshort hlen
    · have hwin : ((kelly_trades_array trades).filter (fun x => 0 < x)).length = 0 := by
        rw [List.length_eq_zero, List.filter_eq_nil_iff]
        intro a ha
        simp only [decide_eq_true_eq, not_lt]
        exact le_of_lt (hneg a (kelly_trades_array_subset trades a ha))
      unfold calculate_kelly_fraction
      rw [if_neg hlen]
      simp only
      rw [if_pos (Or.inl hwin)]

/-- Witness for C3_theorem: five all-positive trades return exactly 0.1. -/
theorem C3_theorem_witness :
    (∀ x ∈ ([1, 1, 1, 1, 1] : List ℚ), 0 < x) ∧
    calculate_kelly_fraction [1, 1, 1, 1, 1] = 1/10 := by
  have h : ∀ x ∈ ([1, 1, 1, 1, 1] : List ℚ), (0:ℚ) < x := by
    intro x hx
    simp only [List.mem_cons, List.not_mem_nil, or_false] at hx
    rcases hx with h | h | h | h | h <;> rw [h] <;> norm_num
  exact ⟨h, (C3_theorem [1, 1, 1, 1, 1]).2.2.1 h⟩

/-! ## C2: exit-check ordering -/

/-- The stop-loss condition of `check_risk_orders` (set, nonzero, and
crossed for the position's side). -/
def slTriggered (orders : ActiveOrders) (current_price : ℚ) (position_type : ℤ) : Prop :=
  orders.stop_loss.getD 0 ≠ 0 ∧
  ((position_type = 1 ∧ current_price ≤ orders.stop_loss.getD 0) ∨
   (position_type = -1 ∧ orders.stop_loss.getD 0 ≤ current_price))

/-- The take-profit condition of `check_risk_orders`. -/
def tpTriggered (orders : ActiveOrders) (current_price : ℚ) (position_type : ℤ) : Prop :=
  orders.take_profit.getD 0 ≠ 0 ∧
  ((position_type = 1 ∧ orders.take_profit.getD 0 ≤ current_price) ∨
   (position_type = -1 ∧ current_price ≤ orders.take_profit.getD 0))

/-- C2, amended: within `check_risk_orders` the order is fixed — stop-loss,
then take-profit, then trailing stop, first match winning; in particular
whenever the stop-loss level is crossed (even if the take-profit level is
crossed on the same bar) the exit reason is stop_loss.  The time stop is
not part of this chain: the loop consults it only on bars whose ATR is
missing, and there it overrides a same-bar stop/take/trailing exit
(see the counterexample for the claimed behaviour). -/
theorem C2_theorem (orders : ActiveOrders) (current_price : ℚ) (position_type : ℤ) :
    (slTriggered orders current_price position_type →
      check_risk_orders orders current_price position_type =
        (true, "stop_loss", orders.stop_loss.getD 0)) ∧
    (¬ slTriggered orders current_price position_type →
      tpTriggered orders current_price position_type →
      check_risk_orders orders current_price position_type =
        (true, "take_profit", orders.take_profit.getD 0)) ∧
    (¬ slTriggered orders current_price position_type →
      ¬ tpTriggered orders current_price position_type →
      ∀ trail, orders.trailing_stop = some trail →
      ((position_type = 1 ∧ current_price ≤ trail.stop_price) ∨
       (position_type = -1 ∧ trail.stop_price ≤ current_price)) →
      check_risk_orders orders current_price position_type =
        (true, "trailing_stop", trail.stop_price)) := by
  unfold slTriggered tpTriggered
  refine ⟨?_, ?_, ?_⟩
  · intro h
    unfold check_risk_orders
    rw [if_pos h]
  · intro h1 h2
    unfold check_risk_orders
    rw [if_neg h1, if_pos h2]
  · intro h1 h2 trail htrail hcross
    unfold check_risk_orders
    rw [if_neg h1, if_neg h2, htrail]
    simp only
    rw [if_pos hcross]

/-- Witness for C2_theorem: after a long-side trailing ratchet the stop
(103.5) sits above the take-profit (103); at close 103.2 both levels are
crossed and the stop-loss wins. -/
theorem C2_theorem_witness :
    slTriggered ⟨some (207/2), some 103, none, false, none⟩ (516/5) 1 ∧
    tpTriggered ⟨some (207/2), some 103, none, false, none⟩ (516/5) 1 ∧
    check_risk_orders ⟨some (207/2), some 103, none, false, none⟩ (516/5) 1 =
      (true, "stop_loss", 207/2) := by
  have hsl : slTriggered ⟨some (207/2), some 103, none, false, none⟩ (516/5) 1 := by
    unfold slTriggered
    norm_num
  have htp : tpTriggered ⟨some (207/2), some 103, none, false, none⟩ (516/5) 1 := by
    unfold tpTriggered
    norm_num
  exact ⟨hsl, htp, (C2_theorem ⟨some (207/2), some 103, none, false, none⟩ (516/5) 1).1 hsl⟩

/-! ## Loop bookkeeping lemmas -/

theorem runUpTo_zero (p : TSParams) (C f r : ℚ) (dyn : Bool) (bars : List Bar)
    (clock : ℕ → ℤ) (fault : ℕ → Bool) :
    runUpTo p C f r dyn bars clock fault 0 = initLoopState C f r := rfl

theorem runUpTo_succ (p : TSParams) (C f r : ℚ) (dyn : Bool) (bars : List Bar)
    (clock : ℕ → ℤ) (fault : ℕ → Bool) (k : ℕ) :
    runUpTo p C f r dyn bars clock fault (k + 1) =
      (if fault (k + 1) then faultStep C f r (runUpTo p C f r dyn bars clock fault k)
       else barStep p r dyn bars (k + 1) (clock (k + 1))
         (runUpTo p C f r dyn bars clock fault k)) := rfl

/-- Last element of a nonempty list is a member. -/
theorem lastD_mem {α : Type} (l : List α) (d : α) (h : l ≠ []) : lastD l d ∈ l := by
  unfold lastD
  have hlen : 0 < l.length := List.length_pos.mpr h
  rw [List.getD_eq_getElem _ _ (by omega)]
  exact List.getElem_mem _

/-- The default of an in-range `getD` is irrelevant. -/
theorem getD_irrel {α : Type} (l : List α) (d d' : α) (n : ℕ) (h : n < l.length) :
    l.getD n d = l.getD n d' := by
  rw [List.getD_eq_getElem _ _ h, List.getD_eq_getElem _ _ h]

/-- Generic invariant for a per-bar history series: if every non-faulting
step appends exactly one value and every faulting step appends the series'
own previous value, then after `k` iterations the series has `k + 1`
entries and on every faulted index the entry equals its predecessor. -/
theorem seriesInv {α : Type} (p : TSParams) (C f r : ℚ) (dyn : Bool)
    (bars : List Bar) (clock : ℕ → ℤ) (fault : ℕ → Bool)
    (get : LoopState → List α) (d0 : α)
    (hbar : ∀ i now st, ∃ x, get (barStep p r dyn bars i now st) = get st ++ [x])
    (hfault : ∀ st, ∃ d, get (faultStep C f r st) = get st ++ [lastD (get st) d])
    (hinit : (get (initLoopState C f r)).length = 1) :
    ∀ k, (get (runUpTo p C f r dyn bars clock fault k)).length = k + 1 ∧
      (∀ i, 1 ≤ i → i ≤ k → fault i = true →
        (get (runUpTo p C f r dyn bars clock fault k)).getD i d0 =
        (get (runUpTo p C f r dyn bars clock fault k)).getD (i - 1) d0) := by
  intro k
  induction k with
  | zero =>
    refine ⟨by rw [runUpTo_zero]; exact hinit, ?_⟩
    intro i h1 h2 _
    omega
  | succ n ih =>
    obtain ⟨ihlen, ihstab⟩ := ih
    rw [runUpTo_succ]
    by_cases hfn : fault (n + 1) = true
    · rw [if_pos hfn]
      obtain ⟨d, hd⟩ := hfault (runUpTo p C f r dyn bars clock fault n)
      rw [hd]
      constructor
      · simp [ihlen]
      · intro i hi1 hi2 hif
        by_cases hin : i ≤ n
        · rw [List.getD_append _ _ _ _ (by omega), List.getD_append _ _ _ _ (by omega)]
          exact ihstab i hi1 hin hif
        · have hieq : i = n + 1 := by omega
          subst hieq
          rw [List.getD_append_right _ _ _ _ (by omega),
            List.getD_append _ _ _ _ (by omega)]
          rw [ihlen, Nat.sub_self]
          simp only [List.getD_cons_zero]
          unfold lastD
          rw [ihlen]
          exact getD_irrel _ _ _ _ (by omega)
    · rw [if_neg hfn]
      obtain ⟨x, hx⟩ := hbar (n + 1) (clock (n + 1)) (runUpTo p C f r dyn bars clock fault n)
      rw [hx]
      constructor
      · simp [ihlen]
      · intro i hi1 hi2 hif
        have hin : i ≤ n := by
          rcases Nat.lt_or_ge i (n + 1) with h | h
          · omega
          · exfalso
            have : i = n + 1 := by omega
            rw [this] at hif
            exact hfn hif
        rw [List.getD_append _ _ _ _ (by omega), List.getD_append _ _ _ _ (by omega)]
        exact ihstab i hi1 hin hif

/-! ## C5: capital accounting -/

/-- Shape lemma for a conditional trade append whose record satisfies the
capital equation. -/
theorem trade_append_cases {c : Prop} [Decidable c] (l : List Trade) (t : Trade)
    (ht : t.capital_after = t.capital_before + t.pnl_absolute) :
    (if c then l ++ [t] else l) = l ∨
    ∃ t', (if c then l ++ [t] else l) = l ++ [t'] ∧
      t'.capital_after = t'.capital_before + t'.pnl_absolute := by
  split_ifs
  · exact Or.inr ⟨t, rfl, ht⟩
  · exact Or.inl rfl

/-- Every iteration either leaves the trade log unchanged or appends one
record whose `capital_after` is exactly `capital_before + pnl_absolute`
(lines 558-559: the sum is recorded unclamped). -/
theorem barStep_trade_history (p : TSParams) (r : ℚ) (dyn : Bool) (bars : List Bar)
    (i : ℕ) (now : ℤ) (st : LoopState) :
    (barStep p r dyn bars i now st).trade_history = st.trade_history ∨
    ∃ t, (barStep p r dyn bars i now st).trade_history = st.trade_history ++ [t] ∧
      t.capital_after = t.capital_before + t.pnl_absolute :=
  trade_append_cases _ _ rfl

/-- The per-bar capital entry appended by a non-faulting iteration is the
clamped `max(total_capital, 0)` (line 594). -/
theorem barStep_capital_append (p : TSParams) (r : ℚ) (dyn : Bool) (bars : List Bar)
    (i : ℕ) (now : ℤ) (st : LoopState) :
    ∃ x, (barStep p r dyn bars i now st).capital_history =
      st.capital_history ++ [pymax x 0] := ⟨_, rfl⟩

theorem pymax_zero_nonneg (x : ℚ) : 0 ≤ pymax x 0 := by
  unfold pymax
  split_ifs with h
  · exact le_refl 0
  · exact le_of_lt (not_le.mp h)

/-- Invariant: the capital history is nonempty and (for a nonnegative seed)
all of its entries are nonnegative; every trade record satisfies the
capital equation. -/
theorem runUpTo_capital_inv (p : TSParams) (C f r : ℚ) (dyn : Bool) (bars : List Bar)
    (clock : ℕ → ℤ) (fault : ℕ → Bool) (k : ℕ) :
    (runUpTo p C f r dyn bars clock fault k).capital_history ≠ [] ∧
    (0 ≤ C → ∀ x ∈ (runUpTo p C f r dyn bars clock fault k).capital_history, 0 ≤ x) ∧
    (∀ t ∈ (runUpTo p C f r dyn bars clock fault k).trade_history,
      t.capital_after = t.capital_before + t.pnl_absolute) := by
  induction k with
  | zero =>
    rw [runUpTo_zero]
    refine ⟨by simp [initLoopState], ?_, ?_⟩
    · intro hC x hx
      simp only [initLoopState, List.mem_singleton] at hx
      rw [hx]; exact hC
    · intro t ht
      simp [initLoopState] at ht
  | succ n ih =>
    obtain ⟨ihne, ihcap, ihtr⟩ := ih
    rw [runUpTo_succ]
    by_cases hfn : fault (n + 1) = true
    · rw [if_pos hfn]
      refine ⟨by simp [faultStep], ?_, ?_⟩
      · intro hC x hx
        simp only [faultStep, List.mem_append, List.mem_singleton] at hx
        rcases hx with hx | hx
        · exact ihcap hC x hx
        · rw [hx]
          exact ihcap hC _ (lastD_mem _ _ ihne)
      · intro t ht
        exact ihtr t ht
    · rw [if_neg hfn]
      set st := runUpTo p C f r dyn bars clock fault n
      obtain ⟨xc, hxc⟩ := barStep_capital_append p r dyn bars (n + 1) (clock (n + 1)) st
      refine ⟨by simp [hxc], ?_, ?_⟩
      · intro hC x hx
        rw [hxc] at hx
        simp only [List.mem_append, List.mem_singleton] at hx
        rcases hx with hx | hx
        · exact ihcap hC x hx
        · rw [hx]; exact pymax_zero_nonneg xc
      · intro t ht
        rcases barStep_trade_history p r dyn bars (n + 1) (clock (n + 1)) st with h | ⟨t', ht', he⟩
        · rw [h] at ht
          exact ihtr t ht
        · rw [ht'] at ht
          simp only [List.mem_append, List.mem_singleton] at ht
          rcases ht with ht | ht
          · exact ihtr t ht
          · rw [ht]; exact he

/-- C5, amended: every Trade record satisfies
`capital_after = capital_before + pnl_absolute` exactly — the sum is *not*
clamped and may be negative (see the counterexample) — while the per-bar
capital column of the result table is clamped at `max(·, 0)` and, for a
nonnegative initial capital, is never negative. -/
theorem C5_theorem (p : TSParams) (C f r : ℚ) (dyn : Bool) (bars : List Bar)
    (clock : ℕ → ℤ) (fault : ℕ → Bool) :
    (∀ t ∈ (runLoop p C f r dyn bars clock fault).trade_history,
      t.capital_after = t.capital_before + t.pnl_absolute) ∧
    (0 ≤ C →
      ∀ x ∈ (buildResult C f r bars.length (runLoop p C f r dyn bars clock fault)).capital,
        0 ≤ x) := by
  obtain ⟨hne, hcap, htr⟩ :=
    runUpTo_capital_inv p C f r dyn bars clock fault (bars.length - 1)
  refine ⟨htr, ?_⟩
  intro hC x hx
  unfold buildResult at hx
  simp only at hx
  split_ifs at hx with h
  · exact hcap hC x (List.mem_of_mem_drop hx)
  · rw [List.eq_of_mem_replicate hx]
    exact hC

/-- A three-bar run (seed; short entry on signal 0 at price 100 with
f = 0.25 and risk 0.1, so size = 25000; price gaps to 1000 and signal 1
closes the short): the loop records one trade. -/
def c5Bars : List Bar := [⟨100, 1, none⟩, ⟨100, 0, none⟩, ⟨1000, 1, none⟩]

set_option maxHeartbeats 2000000 in
/-- Full evaluation of the trade log of the `c5Bars` run. -/
theorem c5_run_trades :
    (runLoop defaultParams 100000 (1/4) (1/10) false c5Bars (fun _ => 0)
        (fun _ => false)).trade_history =
      [{ entry_index := 1, exit_index := 2, entry_price := 100, exit_price := 1000,
         position_size := 25000, position_type := -1, pnl_percent := -900,
         pnl_absolute := -225000, duration := 1, capital_before := 100000,
         capital_after := -125000, exit_reason := "signal_buy",
         position_id := some (-1, 1, 100), stop_loss := none, take_profit := none }] := by
  have hrun : runLoop defaultParams 100000 (1/4) (1/10) false c5Bars (fun _ => 0)
      (fun _ => false) =
      barStep defaultParams (1/10) false c5Bars 2 0
        (barStep defaultParams (1/10) false c5Bars 1 0
          (initLoopState 100000 (1/4) (1/10))) := rfl
  rw [hrun]
  norm_num [barStep, initLoopState, c5Bars, lastD, check_risk_orders, setup_risk_orders,
    calculate_risk_levels, update_trailing_stop, check_time_stop, calculate_position_size,
    position_size_pre_clamp, dynamic_risk_management, calculate_kelly_fraction,
    stepPrice, stepRisk, entrySize, emptyOrders, defaultParams, pymin, pymax, pyabs]

/-- C5, counterexample: the short trade of the `c5Bars` run is recorded with
`capital_after = capital_before + pnl_absolute = -125000 < 0`; the Trade
record is not clamped at zero, contradicting the claim. -/
theorem C5_counterexample :
    ∃ t ∈ (runLoop defaultParams 100000 (1/4) (1/10) false c5Bars (fun _ => 0)
        (fun _ => false)).trade_history,
      t.capital_before = 100000 ∧ t.pnl_absolute = -225000 ∧
      t.capital_after = -125000 ∧ t.capital_after < 0 := by
  rw [c5_run_trades]
  exact ⟨_, List.mem_singleton_self _, rfl, rfl, rfl, by norm_num⟩

/-- Witness for C5_theorem on the concrete `c5Bars` run: the recorded trade
satisfies the exact capital equation and the run's capital column is
nonnegative. -/
theorem C5_theorem_witness :
    ((-125000 : ℚ) = 100000 + -225000) ∧
    (∀ x ∈ (buildResult 100000 (1/4) (1/10) c5Bars.length
        (runLoop defaultParams 100000 (1/4) (1/10) false c5Bars (fun _ => 0)
          (fun _ => false))).capital, 0 ≤ x) := by
  constructor
  · have h := (C5_theorem defaultParams 100000 (1/4) (1/10) false c5Bars (fun _ => 0)
      (fun _ => false)).1
    have hm := h _ (by rw [c5_run_trades]; exact List.mem_singleton_self _)
    simpa using hm
  · exact (C5_theorem defaultParams 100000 (1/4) (1/10) false c5Bars (fun _ => 0)
      (fun _ => false)).2 (by norm_num)

/-! ## C6: fail-forward and result-table shape -/

/-- Length of a result column built from a history of length `m + 1`. -/
theorem colLen {α : Type} (l : List α) (c : α) (m : ℕ) (h : l.length = m + 1) :
    (if 1 < l.length then l.drop 1 else List.replicate m c).length = m := by
  rcases Nat.eq_zero_or_pos m with hm | hm
  · rw [if_neg (by omega)]
    simp [hm]
  · rw [if_pos (by omega)]
    simp [h]

/-- Length of the capital column (its guard also compares the lengths). -/
theorem colLenCap {α : Type} (l : List α) (c : α) (m : ℕ) (h : l.length = m + 1) :
    (if 1 < l.length ∧ l.length - 1 = m then l.drop 1
     else List.replicate m c).length = m := by
  rcases Nat.eq_zero_or_pos m with hm | hm
  · rw [if_neg (by omega)]
    simp [hm]
  · rw [if_pos ⟨by omega, by omega⟩]
    simp [h]

/-- C6: whatever the fault oracle does, every iteration appends exactly one
value to each of the nine per-bar series — on a faulted bar the previous
bar's value — the loop runs to the end, and every column of the result
table has exactly one row per input bar except the seed. -/
theorem C6_theorem (p : TSParams) (C f r : ℚ) (dyn : Bool) (bars : List Bar)
    (clock : ℕ → ℤ) (fault : ℕ → Bool) :
    ((buildResult C f r bars.length (runLoop p C f r dyn bars clock fault)).rows =
        bars.length - 1 ∧
      (buildResult C f r bars.length (runLoop p C f r dyn bars clock fault)).capital.length =
        bars.length - 1 ∧
      (buildResult C f r bars.length (runLoop p C f r dyn bars clock fault)).kelly_f.length =
        bars.length - 1 ∧
      (buildResult C f r bars.length (runLoop p C f r dyn bars clock fault)).position_size.length =
        bars.length - 1 ∧
      (buildResult C f r bars.length (runLoop p C f r dyn bars clock fault)).risk_level.length =
        bars.length - 1 ∧
      (buildResult C f r bars.length (runLoop p C f r dyn bars clock fault)).drawdown.length =
        bars.length - 1 ∧
      (buildResult C f r bars.length (runLoop p C f r dyn bars clock fault)).position_type.length =
        bars.length - 1 ∧
      (buildResult C f r bars.length (runLoop p C f r dyn bars clock fault)).stop_loss_level.length =
        bars.length - 1 ∧
      (buildResult C f r bars.length (runLoop p C f r dyn bars clock fault)).take_profit_level.length =
        bars.length - 1 ∧
      (buildResult C f r bars.length (runLoop p C f r dyn bars clock fault)).exit_reason.length =
        bars.length - 1) ∧
    (∀ i, 1 ≤ i → i ≤ bars.length - 1 → fault i = true →
      (runLoop p C f r dyn bars clock fault).capital_history.getD i 0 =
        (runLoop p C f r dyn bars clock fault).capital_history.getD (i - 1) 0 ∧
      (runLoop p C f r dyn bars clock fault).f_history.getD i 0 =
        (runLoop p C f r dyn bars clock fault).f_history.getD (i - 1) 0 ∧
      (runLoop p C f r dyn bars clock fault).position_size_history.getD i 0 =
        (runLoop p C f r dyn bars clock fault).position_size_history.getD (i - 1) 0 ∧
      (runLoop p C f r dyn bars clock fault).risk_history.getD i 0 =
        (runLoop p C f r dyn bars clock fault).risk_history.getD (i - 1) 0 ∧
      (runLoop p C f r dyn bars clock fault).drawdown_history.getD i 0 =
        (runLoop p C f r dyn bars clock fault).drawdown_history.getD (i - 1) 0 ∧
      (runLoop p C f r dyn bars clock fault).position_type_history.getD i 0 =
        (runLoop p C f r dyn bars clock fault).position_type_history.getD (i - 1) 0 ∧
      (runLoop p C f r dyn bars clock fault).stop_loss_history.getD i 0 =
        (runLoop p C f r dyn bars clock fault).stop_loss_history.getD (i - 1) 0 ∧
      (runLoop p C f r dyn bars clock fault).take_profit_history.getD i 0 =
        (runLoop p C f r dyn bars clock fault).take_profit_history.getD (i - 1) 0 ∧
      (runLoop p C f r dyn bars clock fault).exit_reason_history.getD i "" =
        (runLoop p C f r dyn bars clock fault).exit_reason_history.getD (i - 1) "") := by
  have hcap := seriesInv p C f r dyn bars clock fault (fun st => st.capital_history) 0
    (fun i now st => ⟨_, rfl⟩) (fun st => ⟨_, rfl⟩) rfl (bars.length - 1)
  have hf := seriesInv p C f r dyn bars clock fault (fun st => st.f_history) 0
    (fun i now st => ⟨_, rfl⟩) (fun st => ⟨_, rfl⟩) rfl (bars.length - 1)
  have hps := seriesInv p C f r dyn bars clock fault (fun st => st.position_size_history) 0
    (fun i now st => ⟨_, rfl⟩) (fun st => ⟨_, rfl⟩) rfl (bars.length - 1)
  have hrk := seriesInv p C f r dyn bars clock fault (fun st => st.risk_history) 0
    (fun i now st => ⟨_, rfl⟩) (fun st => ⟨_, rfl⟩) rfl (bars.length - 1)
  have hdd := seriesInv p C f r dyn bars clock fault (fun st => st.drawdown_history) 0
    (fun i now st => ⟨_, rfl⟩) (fun st => ⟨_, rfl⟩) rfl (bars.length - 1)
  have hpt := seriesInv p C f r dyn bars clock fault (fun st => st.position_type_history) 0
    (fun i now st => ⟨_, rfl⟩) (fun st => ⟨_, rfl⟩) rfl (bars.length - 1)
  have hsl := seriesInv p C f r dyn bars clock fault (fun st => st.stop_loss_history) 0
    (fun i now st => ⟨_, rfl⟩) (fun st => ⟨_, rfl⟩) rfl (bars.length - 1)
  have htp := seriesInv p C f r dyn bars clock fault (fun st => st.take_profit_history) 0
    (fun i now st => ⟨_, rfl⟩) (fun st => ⟨_, rfl⟩) rfl (bars.length - 1)
  have her := seriesInv p C f r dyn bars clock fault (fun st => st.exit_reason_history) ""
    (fun i now st => ⟨_, rfl⟩) (fun st => ⟨_, rfl⟩) rfl (bars.length - 1)
  constructor
  · refine ⟨rfl, ?_, ?_, ?_, ?_, ?_, ?_, ?_, ?_, ?_⟩
    · exact colLenCap _ _ _ hcap.1
    · exact colLen _ _ _ hf.1
    · exact colLen _ _ _ hps.1
    · exact colLen _ _ _ hrk.1
    · exact colLen _ _ _ hdd.1
    · exact colLen _ _ _ hpt.1
    · exact colLen _ _ _ hsl.1
    · exact colLen _ _ _ htp.1
    · exact colLen _ _ _ her.1
  · intro i h1 h2 hif
    exact ⟨hcap.2 i h1 h2 hif, hf.2 i h1 h2 hif, hps.2 i h1 h2 hif,
      hrk.2 i h1 h2 hif, hdd.2 i h1 h2 hif, hpt.2 i h1 h2 hif,
      hsl.2 i h1 h2 hif, htp.2 i h1 h2 hif, her.2 i h1 h2 hif⟩

/-- A three-bar table whose bar 2 is marked faulty by the oracle. -/
def c6Bars : List Bar := [⟨100, 1, some 1⟩, ⟨101, 1, some 1⟩, ⟨102, 1, some 1⟩]

/-- Witness for C6_theorem: on the `c6Bars` run with bar 2 faulted, the
result table has 2 rows and bar 2 repeats bar 1 in the capital and
exit-reason series. -/
theorem C6_theorem_witness :
    (buildResult 100000 (1/10) (1/100) c6Bars.length
        (runLoop defaultParams 100000 (1/10) (1/100) false c6Bars (fun _ => 0)
          (fun i => decide (i = 2)))).rows = c6Bars.length - 1 ∧
    (buildResult 100000 (1/10) (1/100) c6Bars.length
        (runLoop defaultParams 100000 (1/10) (1/100) false c6Bars (fun _ => 0)
          (fun i => decide (i = 2)))).capital.length = c6Bars.length - 1 ∧
    (runLoop defaultParams 100000 (1/10) (1/100) false c6Bars (fun _ => 0)
        (fun i => decide (i = 2))).capital_history.getD 2 0 =
      (runLoop defaultParams 100000 (1/10) (1/100) false c6Bars (fun _ => 0)
        (fun i => decide (i = 2))).capital_history.getD (2 - 1) 0 ∧
    (runLoop defaultParams 100000 (1/10) (1/100) false c6Bars (fun _ => 0)
        (fun i => decide (i = 2))).exit_reason_history.getD 2 "" =
      (runLoop defaultParams 100000 (1/10) (1/100) false c6Bars (fun _ => 0)
        (fun i => decide (i = 2))).exit_reason_history.getD (2 - 1) "" := by
  have h := C6_theorem defaultParams 100000 (1/10) (1/100) false c6Bars (fun _ => 0)
    (fun i => decide (i = 2))
  have hs := h.2 2 (by norm_num) (by norm_num [c6Bars]) (by norm_num)
  exact ⟨h.1.1, h.1.2.1, hs.1, hs.2.2.2.2.2.2.2.2⟩

/-- Orders of a long opened at 100 with ATR 1 under the default parameters:
stop 98, take 103, trailing armed at 98 (extreme 100), time stop armed at
day 0 for 10 days. -/
def c2Orders : ActiveOrders :=
  { stop_loss := some 98, take_profit := some 103,
    trailing_stop := some ⟨98, some 100, 0⟩, break_even := false,
    time_stop := some ⟨0, 10⟩ }

/-- Loop state holding that long position. -/
def c2State : LoopState :=
  { initLoopState 100000 (1/10) (1/100) with
    in_position := true
    current_position_id := some (1, 1, 100)
    position_type := 1
    entry_price := 100
    entry_index := 1
    position_size := 10
    orders := c2Orders }

/-- A bar at close 100.5 with ATR present. -/
def c2Bars : List Bar := [⟨100, 1, none⟩, ⟨201/2, 1, some 1⟩]

set_option maxHeartbeats 1000000 in
/-- C2, counterexample: on a bar where the position is 10 wall-clock days
old (the time-stop condition of `check_time_stop` holds) and none of
stop/take/trailing triggers, the claim says the time stop — the first and
only triggering condition — determines the exit.  The code checks the time
stop only when the bar's ATR is missing (line 457/465: `if atr is not None:
... elif self.check_time_stop(...)`), so with ATR present no exit happens:
the position stays open and the recorded exit reason is empty. -/
theorem C2_counterexample :
    check_time_stop c2Orders 20 = true ∧
    check_risk_orders c2Orders (201/2) 1 = (false, "", 0) ∧
    (barStep defaultParams (1/100) false c2Bars 1 20 c2State).in_position = true ∧
    lastD (barStep defaultParams (1/100) false c2Bars 1 20 c2State).exit_reason_history
      "none" = "" := by
  refine ⟨?_, ?_, ?_, ?_⟩
  · norm_num [check_time_stop, c2Orders]
  · norm_num [check_risk_orders, c2Orders]
  · norm_num [barStep, c2State, c2Orders, c2Bars, initLoopState, lastD, check_risk_orders,
      setup_risk_orders, calculate_risk_levels, update_trailing_stop, check_time_stop,
      calculate_position_size, position_size_pre_clamp, dynamic_risk_management,
      stepPrice, stepRisk, entrySize, emptyOrders, defaultParams, pymin, pymax, pyabs]
  · norm_num [barStep, c2State, c2Orders, c2Bars, initLoopState, lastD, check_risk_orders,
      setup_risk_orders, calculate_risk_levels, update_trailing_stop, check_time_stop,
      calculate_position_size, position_size_pre_clamp, dynamic_risk_management,
      stepPrice, stepRisk, entrySize, emptyOrders, defaultParams, pymin, pymax, pyabs]

/-! ## C4: stop-loss ratchet and break-even -/

/-- Loop state holding a long entered at 100 with ATR 1 (same orders as
`c2Orders`) for the C4 scenario. -/
def c4State : LoopState :=
  { initLoopState 100000 (1/10) (1/100) with
    in_position := true
    current_position_id := some (1, 0, 100)
    position_type := 1
    entry_price := 100
    entry_index := 0
    position_size := 10
    orders := c2Orders }

/-- Bars for the C4 scenario: close rises to 102.9 (favourable move of
2.9 = 2.9 ATR from entry), then eases to 102.0; ATR stays 1. -/
def c4Bars : List Bar := [⟨100, 1, some 1⟩, ⟨1029/10, 1, some 1⟩, ⟨102, 1, some 1⟩]

set_option maxHeartbeats 2000000 in
/-- C4, evaluation at the failing input: after the rise to 102.9 the
trailing logic sets the stop to 101.4, but the next bar's re-arm from the
entry price (lines 455-460, executed on every in-position bar with ATR)
resets it to 98 — the effective stop level loosens from 101.4 to 98 while
the position stays open — and although the price has moved favourably by
2.9 ≥ break_even_atr_threshold·ATR = 1, the break-even flag is never set
(the activation test of line 180 compares `current_price` against
`current_price·(1 + θ·atr/current_price)`, which cannot hold for positive
θ·atr). -/
theorem C4_code_bug_eval :
    (barStep defaultParams (1/100) false c4Bars 1 0 c4State).orders.stop_loss =
      some (507/5) ∧
    (barStep defaultParams (1/100) false c4Bars 2 0
        (barStep defaultParams (1/100) false c4Bars 1 0 c4State)).orders.stop_loss =
      some 98 ∧
    (98 : ℚ) < 507/5 ∧
    (barStep defaultParams (1/100) false c4Bars 1 0 c4State).orders.break_even = false ∧
    (barStep defaultParams (1/100) false c4Bars 2 0
        (barStep defaultParams (1/100) false c4Bars 1 0 c4State)).orders.break_even = false ∧
    (barStep defaultParams (1/100) false c4Bars 2 0
        (barStep defaultParams (1/100) false c4Bars 1 0 c4State)).in_position = true ∧
    defaultParams.break_even_atr_threshold * 1 ≤ 1029/10 - 100 := by
  refine ⟨?_, ?_, by norm_num, ?_, ?_, ?_, by norm_num [defaultParams]⟩ <;>
    norm_num [barStep, c4State, c2Orders, c4Bars, initLoopState, lastD, check_risk_orders,
      setup_risk_orders, calculate_risk_levels, update_trailing_stop, check_time_stop,
      calculate_position_size, position_size_pre_clamp, dynamic_risk_management,
      stepPrice, stepRisk, entrySize, emptyOrders, defaultParams, pymin, pymax, pyabs]

/-! ## C9: a 0 signal opens a short -/

/-- With risk management disabled, `setup_risk_orders` leaves the order
state untouched. -/
theorem setup_risk_orders_disabled (p : TSParams) (h : p.risk_management_enabled = false)
    (orders : ActiveOrders) (e a : ℚ) (t : ℤ) (now : ℤ) :
    setup_risk_orders p orders e a t now = orders := by
  unfold setup_risk_orders
  rw [if_pos (by simp [h])]

set_option maxHeartbeats 1000000 in
/-- C9: on any bar with no open position, signal exactly 0, a positive
close and a positive size from the sizer, the loop opens a short —
`position_type = -1`, entry at that bar's close — rather than staying flat
(lines 499-515: `elif signal == 0` is the short-entry branch). -/
theorem C9_theorem (p : TSParams) (r : ℚ) (dyn : Bool) (bars : List Bar)
    (i : ℕ) (now : ℤ) (st : LoopState)
    (h_in : st.in_position = false)
    (h_sig : (bars.getD i default).signal = 0)
    (h_price : 0 < (bars.getD i default).close)
    (h_size : 0 < entrySize r dyn bars i st) :
    (barStep p r dyn bars i now st).in_position = true ∧
    (barStep p r dyn bars i now st).position_type = -1 ∧
    (barStep p r dyn bars i now st).entry_price = (bars.getD i default).close ∧
    (barStep p r dyn bars i now st).entry_index = i ∧
    (barStep p r dyn bars i now st).position_size = entrySize r dyn bars i st ∧
    (barStep p r dyn bars i now st).current_position_id =
      some (-1, i, (bars.getD i default).close) ∧
    (barStep p r dyn bars i now st).trade_history = st.trade_history := by
  have hsp : stepPrice bars i = (bars.getD i default).close := by
    unfold stepPrice
    rw [if_neg (not_le.mpr h_price)]
  simp only [barStep, h_in, h_sig, hsp, h_price, h_size]
  norm_num

/-- Bars for the C9 witness: a 0 signal on bar 1 at price 100, no ATR. -/
def c9Bars : List Bar := [⟨100, 0, none⟩, ⟨100, 0, none⟩]

/-- Witness for C9_theorem: from the fresh state the loop opens a short of
size 3000 at bar 1. -/
theorem C9_theorem_witness :
    (barStep defaultParams (1/100) false c9Bars 1 0
      (initLoopState 100000 (1/10) (1/100))).in_position = true ∧
    (barStep defaultParams (1/100) false c9Bars 1 0
      (initLoopState 100000 (1/10) (1/100))).position_type = -1 ∧
    (barStep defaultParams (1/100) false c9Bars 1 0
      (initLoopState 100000 (1/10) (1/100))).entry_price =
      (c9Bars.getD 1 default).close := by
  have h := C9_theorem defaultParams (1/100) false c9Bars 1 0
    (initLoopState 100000 (1/10) (1/100)) rfl (by norm_num [c9Bars])
    (by norm_num [c9Bars])
    (by norm_num [entrySize, stepPrice, stepRisk, calculate_position_size,
      position_size_pre_clamp, initLoopState, lastD, c9Bars, pymin, pymax])
  exact ⟨h.1, h.2.1, h.2.2.1⟩

/-! ## C10: simulate_trading resets the capital from initial_f -/

/-- The two capital fields of `SeikotaTradingSystem` touched by
`simulate_trading` (lines 689-690). -/
structure SystemCapital where
  initial_capital : ℚ
  current_capital : ℚ
deriving DecidableEq

/-- Embedding of `_validate_parameters` (lines 747-757): parameter checks, including
`self.initial_capital > 0` on the capital configured before the call. -/
def validate_parameters (sys : SystemCapital) (initial_f risk_per_trade : ℚ) : Prop :=
  0 < initial_f ∧ initial_f ≤ 1/2 ∧ 0 < risk_per_trade ∧ risk_per_trade ≤ 1/10 ∧
  0 < sys.initial_capital

instance (sys : SystemCapital) (f r : ℚ) : Decidable (validate_parameters sys f r) := by
  unfold validate_parameters
  infer_instance

/-- The capital preparation of `simulate_trading` (lines 672-694):
after data validation (abstracted as the Boolean `data_valid`, the outcome
of `validate_price_data`) and parameter validation, both capital fields are
overwritten with `initial_f * 100000`; on failure the method short-circuits
to the safe DataFrame (`none` here). -/
def simulate_trading_setup (sys : SystemCapital) (initial_f risk_per_trade : ℚ)
    (data_valid : Bool) : Option SystemCapital :=
  if ¬ data_valid then none
  else if ¬ validate_parameters sys initial_f risk_per_trade then none
  else some ⟨initial_f * 100000, initial_f * 100000⟩

/-- C10: whenever validation passes, `simulate_trading` seeds the run with
`initial_capital = current_capital = initial_f * 100000`; the capital with
which the system was constructed only has to be positive and is otherwise
discarded — two systems with different configured capital produce the same
seed.  The loop (`runLoop`) then starts from that `initial_capital`. -/
theorem C10_theorem (sys sys' : SystemCapital) (initial_f risk_per_trade : ℚ)
    (hf1 : 0 < initial_f) (hf2 : initial_f ≤ 1/2)
    (hr1 : 0 < risk_per_trade) (hr2 : risk_per_trade ≤ 1/10)
    (hc : 0 < sys.initial_capital) (hc' : 0 < sys'.initial_capital) :
    simulate_trading_setup sys initial_f risk_per_trade true =
      some ⟨initial_f * 100000, initial_f * 100000⟩ ∧
    simulate_trading_setup sys initial_f risk_per_trade true =
      simulate_trading_setup sys' initial_f risk_per_trade true := by
  have h : validate_parameters sys initial_f risk_per_trade := ⟨hf1, hf2, hr1, hr2, hc⟩
  have h' : validate_parameters sys' initial_f risk_per_trade := ⟨hf1, hf2, hr1, hr2, hc'⟩
  unfold simulate_trading_setup
  rw [if_neg (by simp), if_neg (not_not_intro h), if_neg (by simp),
    if_neg (not_not_intro h')]
  exact ⟨rfl, rfl⟩

/-- Witness for C10_theorem: systems constructed with capital 5 and 123
both end up seeded with 0.1 * 100000 = 10000. -/
theorem C10_theorem_witness :
    simulate_trading_setup ⟨5, 7⟩ (1/10) (1/100) true = some ⟨1/10 * 100000, 1/10 * 100000⟩ ∧
    simulate_trading_setup ⟨5, 7⟩ (1/10) (1/100) true =
      simulate_trading_setup ⟨123, 99⟩ (1/10) (1/100) true :=
  C10_theorem ⟨5, 7⟩ ⟨123, 99⟩ (1/10) (1/100) (by norm_num) (by norm_num)
    (by norm_num) (by norm_num) (by norm_num) (by norm_num)

/-! ## C8: SuperTrend on a strictly increasing price series -/

theorem le_pymax_left (a b : ℚ) : a ≤ pymax a b := by
  rw [pymax_eq]; exact le_max_left a b

theorem le_pymax_right (a b : ℚ) : b ≤ pymax a b := by
  rw [pymax_eq]; exact le_max_right a b

theorem pyabs_nonneg (a : ℚ) : 0 ≤ pyabs a := by
  rw [pyabs_eq]; exact abs_nonneg a

/-- The dynamic risk is always at least 0.005 (the lower clamp). -/
theorem dynamic_risk_pos (c p b : ℚ) : 0 < dynamic_risk_management c p b := by
  unfold dynamic_risk_management
  exact lt_of_lt_of_le (by norm_num) (le_pymax_left _ _)

/-- A plain price series yields bars with `high = low = close` at every
index (the out-of-range default `⟨0,0,0⟩` matches `closes.getD _ 0 = 0`). -/
theorem closesToBars_getD (closes : List ℚ) (i : ℕ) :
    (closesToBars closes).getD i default =
      ⟨closes.getD i 0, closes.getD i 0, closes.getD i 0⟩ := by
  unfold closesToBars
  rcases Nat.lt_or_ge i closes.length with h | h
  · rw [List.getD_eq_getElem _ _ (by simpa using h), List.getD_eq_getElem _ _ h]
    exact List.getElem_map _
  · rw [List.getD_eq_default _ _ (by simpa using h), List.getD_eq_default _ _ h]
    rfl

theorem trAt_zero (closes : List ℚ) : trAt (closesToBars closes) 0 = 0 := by
  unfold trAt
  rw [if_pos rfl, closesToBars_getD]
  simp

theorem trAt_nonneg (closes : List ℚ) (i : ℕ) : 0 ≤ trAt (closesToBars closes) i := by
  unfold trAt
  split_ifs with h
  · rw [closesToBars_getD]; simp
  · rw [closesToBars_getD, closesToBars_getD]
    simp only [pymax_eq, pyabs_eq]
    exact le_trans (abs_nonneg _) (le_trans (le_max_left _ _) (le_max_right _ _))

theorem trAt_pos (closes : List ℚ) (i : ℕ) (h1 : 1 ≤ i) (h2 : i < closes.length)
    (hmono : ∀ j, j + 1 < closes.length → closes.getD j 0 < closes.getD (j + 1) 0) :
    0 < trAt (closesToBars closes) i := by
  unfold trAt
  rw [if_neg (by omega), closesToBars_getD, closesToBars_getD]
  simp only [pymax_eq, pyabs_eq]
  have hlt : closes.getD (i - 1) 0 < closes.getD i 0 := by
    have h3 := hmono (i - 1) (by omega)
    rwa [Nat.sub_add_cancel h1] at h3
  have habs : 0 < |closes.getD i 0 - closes.getD (i - 1) 0| := by
    rw [abs_pos]
    intro hcontra
    have : closes.getD i 0 = closes.getD (i - 1) 0 := by linarith
    linarith
  exact lt_of_lt_of_le habs (le_trans (le_max_left _ _) (le_max_right _ _))

theorem atrAt_pos (closes : List ℚ) (pd : ℕ) (hpd : 1 ≤ pd) (i : ℕ)
    (h1 : 1 ≤ i) (h2 : i < closes.length)
    (hmono : ∀ j, j + 1 < closes.length → closes.getD j 0 < closes.getD (j + 1) 0) :
    0 < atrAt (closesToBars closes) pd i := by
  unfold atrAt
  rw [List.range_succ, List.drop_append_of_le_length (by simp; omega), List.map_append]
  simp only [List.map_cons, List.map_nil, List.sum_append, List.sum_cons, List.sum_nil,
    List.length_append, List.length_cons, List.length_nil, List.length_map]
  apply div_pos
  · have hS : 0 ≤ (((List.range i).drop (i + 1 - pd)).map (trAt (closesToBars closes))).sum :=
      List.sum_nonneg (by
        intro x hx
        obtain ⟨j, _, rfl⟩ := List.mem_map.mp hx
        exact trAt_nonneg closes j)
    have hT := trAt_pos closes i h1 h2 hmono
    linarith
  · have : (0 : ℕ) < ((List.range i).drop (i + 1 - pd)).length + (0 + 1) := by omega
    exact_mod_cast this

/-- With `min_periods=1` the row-0 ATR of a plain price series is the row-0
true range, which is `high - low = 0`. -/
theorem atrAt_zero_closes (closes : List ℚ) (pd : ℕ) (hpd : 1 ≤ pd) :
    atrAt (closesToBars closes) pd 0 = 0 := by
  unfold atrAt
  have h1 : (1 : ℕ) - pd = 0 := by omega
  rw [h1]
  simp [List.range_succ, trAt_zero]

/-- Row 0 of SuperTrend on a plain price series: the bands collapse onto
the close (ATR is 0) and `close <= basic_upper` starts the trend down. -/
theorem stAt_zero_closes (closes : List ℚ) :
    stAt (closesToBars closes) 10 3 0 =
      ⟨closes.getD 0 0, closes.getD 0 0, -1, closes.getD 0 0⟩ := by
  have hbu : basicUpperAt (closesToBars closes) 10 3 0 = closes.getD 0 0 := by
    unfold basicUpperAt hl2At
    rw [closesToBars_getD, atrAt_zero_closes closes 10 (by norm_num)]
    ring
  have hbl : basicLowerAt (closesToBars closes) 10 3 0 = closes.getD 0 0 := by
    unfold basicLowerAt hl2At
    rw [closesToBars_getD, atrAt_zero_closes closes 10 (by norm_num)]
    ring
  simp only [stAt, supertrendInit, hbu, hbl, closesToBars_getD]
  rw [if_pos (le_refl _)]

/-- One SuperTrend step while the trend is up: if the previous lower band
is below the previous close and the new basic lower band is below the new
close (which is above the previous one), the trend stays up and the new
final lower band stays below the close. -/
theorem supertrendStep_up (bu bl pc c : ℚ) (prev : STState)
    (hdir : prev.direction = 1) (hfl : prev.final_lower < pc)
    (hbl : bl < c) (hpc : pc < c) :
    (supertrendStep bu bl pc c prev).direction = 1 ∧
    (supertrendStep bu bl pc c prev).final_lower < c := by
  have hflv : (if prev.final_lower < bl ∨ pc < prev.final_lower then bl
      else prev.final_lower) < c := by
    split_ifs with h
    · exact hbl
    · linarith
  simp only [supertrendStep]
  rw [if_pos hdir, if_neg (not_le.mpr hflv)]
  exact ⟨rfl, hflv⟩

/-- The SuperTrend flip up: with the previous trend down, an unchanged
final upper band and a close at or above it, the trend turns up and the new
final lower band stays below the close. -/
theorem supertrendStep_flip (bu bl pc c : ℚ) (prev : STState)
    (hdir : prev.direction = -1)
    (hfu_keep : ¬ (bu < prev.final_upper ∨ prev.final_upper < pc))
    (hcross : prev.final_upper ≤ c)
    (hbl : bl < c) (hflprev : prev.final_lower < c) :
    (supertrendStep bu bl pc c prev).direction = 1 ∧
    (supertrendStep bu bl pc c prev).final_lower < c := by
  simp only [supertrendStep]
  rw [if_neg hfu_keep, if_neg (by rw [hdir]; norm_num), if_pos hcross]
  refine ⟨rfl, ?_⟩
  split_ifs with h
  · exact hbl
  · exact hflprev

/-- Direction invariant on a strictly increasing plain price series: from
row 1 on the SuperTrend direction is up and the final lower band stays
strictly below the close. -/
theorem st_dir_inv (closes : List ℚ)
    (hpos : ∀ j, j < closes.length → 0 < closes.getD j 0)
    (hmono : ∀ j, j + 1 < closes.length → closes.getD j 0 < closes.getD (j + 1) 0) :
    ∀ i, 1 ≤ i → i < closes.length →
      (stAt (closesToBars closes) 10 3 i).direction = 1 ∧
      (stAt (closesToBars closes) 10 3 i).final_lower < closes.getD i 0 := by
  intro i
  induction i with
  | zero => omega
  | succ m ih =>
    intro _ hlt
    have hatr : 0 < atrAt (closesToBars closes) 10 (m + 1) :=
      atrAt_pos closes 10 (by norm_num) (m + 1) (by omega) hlt hmono
    have hmlt : closes.getD m 0 < closes.getD (m + 1) 0 := hmono m hlt
    have hbu : basicUpperAt (closesToBars closes) 10 3 (m + 1) =
        closes.getD (m + 1) 0 + 3 * atrAt (closesToBars closes) 10 (m + 1) := by
      unfold basicUpperAt hl2At
      rw [closesToBars_getD]
      ring
    have hbl : basicLowerAt (closesToBars closes) 10 3 (m + 1) =
        closes.getD (m + 1) 0 - 3 * atrAt (closesToBars closes) 10 (m + 1) := by
      unfold basicLowerAt hl2At
      rw [closesToBars_getD]
      ring
    have hst : stAt (closesToBars closes) 10 3 (m + 1) =
        supertrendStep (basicUpperAt (closesToBars closes) 10 3 (m + 1))
          (basicLowerAt (closesToBars closes) 10 3 (m + 1))
          (((closesToBars closes).getD m default).close)
          (((closesToBars closes).getD (m + 1) default).close)
          (stAt (closesToBars closes) 10 3 m) := rfl
    rw [hst, hbu, hbl, closesToBars_getD, closesToBars_getD]
    simp only
    rcases Nat.eq_zero_or_pos m with hm0 | hmpos
    · subst hm0
      rw [stAt_zero_closes closes]
      apply supertrendStep_flip
      · rfl
      · simp only
        push_neg
        constructor
        · linarith
        · linarith
      · simp only
        linarith
      · linarith
      · simp only
        linarith
    · obtain ⟨ihdir, ihfl⟩ := ih (by omega) (by omega)
      exact supertrendStep_up _ _ _ _ _ ihdir ihfl (by linarith) hmlt

/-- The SuperTrend signal on a strictly increasing plain price series:
flat on the seed row, long from row 1 on. -/
theorem st_signal (closes : List ℚ) (hn : 2 ≤ closes.length)
    (hpos : ∀ j, j < closes.length → 0 < closes.getD j 0)
    (hmono : ∀ j, j + 1 < closes.length → closes.getD j 0 < closes.getD (j + 1) 0) :
    supertrendSignalAt (fun j => (stAt (closesToBars closes) 10 3 j).direction) 0 = 0 ∧
    ∀ i, 1 ≤ i → i < closes.length →
      supertrendSignalAt (fun j => (stAt (closesToBars closes) 10 3 j).direction) i = 1 := by
  have hdir0 : (stAt (closesToBars closes) 10 3 0).direction = -1 := by
    rw [stAt_zero_closes closes]
  constructor
  · simp only [supertrendSignalAt, hdir0]
    norm_num
  · intro i
    induction i with
    | zero => omega
    | succ m ih =>
      intro _ hlt
      have hdirm1 : (stAt (closesToBars closes) 10 3 (m + 1)).direction = 1 :=
        (st_dir_inv closes hpos hmono (m + 1) (by omega) hlt).1
      rcases Nat.eq_zero_or_pos m with hm0 | hmpos
      · subst hm0
        simp only [supertrendSignalAt, hdirm1, hdir0]
        norm_num
      · have hdirm : (stAt (closesToBars closes) 10 3 m).direction = 1 :=
          (st_dir_inv closes hpos hmono m (by omega) (by omega)).1
        have := ih (by omega) (by omega)
        simp only [supertrendSignalAt, hdirm1, hdirm]
        norm_num
        exact this

theorem simDataBars_length (closes : List ℚ) (pd : ℕ) (m : ℚ) :
    (simDataBars closes pd m).length = closes.length := by
  simp [simDataBars]

/-- The row the loop reads at an in-range index. -/
theorem simDataBars_getD (closes : List ℚ) (pd : ℕ) (m : ℚ) (i : ℕ)
    (h : i < closes.length) :
    (simDataBars closes pd m).getD i default =
      { close := closes.getD i 0
        signal := supertrendSignalAt
          (fun j => (stAt (closesToBars closes) pd m j).direction) i
        atr := some (atrAt (closesToBars closes) 14 i) } := by
  unfold simDataBars
  rw [List.getD_eq_getElem _ _ (by simpa using h)]
  simp only [List.getElem_map, List.getElem_range]

set_option maxHeartbeats 1000000 in
/-- Entry step, long side: with no open position, signal 1, positive close,
positive size and risk management disabled, the loop opens a long at the
bar's close (and the disabled `setup_risk_orders` leaves the orders as they
were). -/
theorem barStep_entry_long (p : TSParams) (r : ℚ) (dyn : Bool) (bars : List Bar)
    (i : ℕ) (now : ℤ) (st : LoopState) (a : ℚ)
    (h_rm : p.risk_management_enabled = false)
    (h_in : st.in_position = false)
    (h_sig : (bars.getD i default).signal = 1)
    (h_atr : (bars.getD i default).atr = some a)
    (h_price : 0 < (bars.getD i default).close)
    (h_size : 0 < entrySize r dyn bars i st) :
    (barStep p r dyn bars i now st).in_position = true ∧
    (barStep p r dyn bars i now st).position_type = 1 ∧
    (barStep p r dyn bars i now st).entry_price = (bars.getD i default).close ∧
    (barStep p r dyn bars i now st).entry_index = i ∧
    (barStep p r dyn bars i now st).position_size = entrySize r dyn bars i st ∧
    (barStep p r dyn bars i now st).current_position_id =
      some (1, i, (bars.getD i default).close) ∧
    (barStep p r dyn bars i now st).orders = st.orders ∧
    (barStep p r dyn bars i now st).trade_history = st.trade_history := by
  have hsp : stepPrice bars i = (bars.getD i default).close := by
    unfold stepPrice
    rw [if_neg (not_le.mpr h_price)]
  simp only [barStep, h_in, h_sig, h_atr, hsp, h_price, h_size,
    setup_risk_orders_disabled p h_rm]
  norm_num

set_option maxHeartbeats 1000000 in
/-- Hold step: while long with signal 1 and risk management disabled, a bar
changes none of the position fields, orders or the trade log. -/
theorem barStep_hold_long (p : TSParams) (r : ℚ) (dyn : Bool) (bars : List Bar)
    (i : ℕ) (now : ℤ) (st : LoopState)
    (h_rm : p.risk_management_enabled = false)
    (h_in : st.in_position = true)
    (h_type : st.position_type = 1)
    (h_sig : (bars.getD i default).signal = 1) :
    (barStep p r dyn bars i now st).in_position = true ∧
    (barStep p r dyn bars i now st).position_type = 1 ∧
    (barStep p r dyn bars i now st).position_size = st.position_size ∧
    (barStep p r dyn bars i now st).entry_price = st.entry_price ∧
    (barStep p r dyn bars i now st).entry_index = st.entry_index ∧
    (barStep p r dyn bars i now st).orders = st.orders ∧
    (barStep p r dyn bars i now st).current_position_id = st.current_position_id ∧
    (barStep p r dyn bars i now st).trade_history = st.trade_history := by
  simp only [barStep, h_in, h_type, h_sig, h_rm]
  norm_num

/-- The size requested at the entry bar of the SuperTrend run is positive. -/
theorem c8_entry_size_pos (closes : List ℚ) (C f r : ℚ) (dyn : Bool)
    (hn : 2 ≤ closes.length)
    (hpos : ∀ j, j < closes.length → 0 < closes.getD j 0)
    (hC : 0 < C) (hf : 0 < f) (hr : 0 < r) :
    0 < entrySize r dyn (simDataBars closes 10 3) 1 (initLoopState C f r) := by
  have hclose : ((simDataBars closes 10 3).getD 1 default).close = closes.getD 1 0 := by
    rw [simDataBars_getD closes 10 3 1 (by omega)]
  have hcp : 0 < closes.getD 1 0 := hpos 1 (by omega)
  have hsp : stepPrice (simDataBars closes 10 3) 1 = closes.getD 1 0 := by
    unfold stepPrice
    rw [hclose]
    rw [if_neg (not_le.mpr hcp)]
  have hrisk : 0 < stepRisk r dyn (initLoopState C f r) := by
    unfold stepRisk
    split_ifs with h
    · exact dynamic_risk_pos _ _ _
    · exact hr
  have hes : entrySize r dyn (simDataBars closes 10 3) 1 (initLoopState C f r) =
      calculate_position_size C f (stepPrice (simDataBars closes 10 3) 1)
        (((simDataBars closes 10 3).getD 1 default).atr)
        (stepRisk r dyn (initLoopState C f r)) := rfl
  rw [hes, hsp]
  have hb := calculate_position_size_bounds C f (closes.getD 1 0)
    (((simDataBars closes 10 3).getD 1 default).atr)
    (stepRisk r dyn (initLoopState C f r)) hC hf hcp hrisk
  nlinarith [hb.1]

/-- Invariant of the SuperTrend run: after bar 1 the loop is long with
entry index 1, the size requested at bar 1, no orders (risk management
disabled) and an empty trade log, and it stays that way to the end. -/
theorem c8_loop_inv (closes : List ℚ) (C f r : ℚ) (dyn : Bool) (clock : ℕ → ℤ)
    (hn : 2 ≤ closes.length)
    (hpos : ∀ j, j < closes.length → 0 < closes.getD j 0)
    (hmono : ∀ j, j + 1 < closes.length → closes.getD j 0 < closes.getD (j + 1) 0)
    (hC : 0 < C) (hf : 0 < f) (hr : 0 < r) :
    ∀ k, 1 ≤ k → k ≤ closes.length - 1 →
      (runUpTo { defaultParams with risk_management_enabled := false } C f r dyn
          (simDataBars closes 10 3) clock (fun _ => false) k).in_position = true ∧
      (runUpTo { defaultParams with risk_management_enabled := false } C f r dyn
          (simDataBars closes 10 3) clock (fun _ => false) k).position_type = 1 ∧
      (runUpTo { defaultParams with risk_management_enabled := false } C f r dyn
          (simDataBars closes 10 3) clock (fun _ => false) k).entry_index = 1 ∧
      (runUpTo { defaultParams with risk_management_enabled := false } C f r dyn
          (simDataBars closes 10 3) clock (fun _ => false) k).entry_price =
        closes.getD 1 0 ∧
      (runUpTo { defaultParams with risk_management_enabled := false } C f r dyn
          (simDataBars closes 10 3) clock (fun _ => false) k).position_size =
        entrySize r dyn (simDataBars closes 10 3) 1 (initLoopState C f r) ∧
      (runUpTo { defaultParams with risk_management_enabled := false } C f r dyn
          (simDataBars closes 10 3) clock (fun _ => false) k).orders = emptyOrders ∧
      (runUpTo { defaultParams with risk_management_enabled := false } C f r dyn
          (simDataBars closes 10 3) clock (fun _ => false) k).trade_history = [] := by
  have hsig := st_signal closes hn hpos hmono
  intro k
  induction k with
  | zero => omega
  | succ m ih =>
    intro _ hk
    rw [runUpTo_succ]
    rw [if_neg (by norm_num)]
    rcases Nat.eq_zero_or_pos m with hm0 | hmpos
    · subst hm0
      rw [runUpTo_zero]
      have hbar : (simDataBars closes 10 3).getD 1 default =
          { close := closes.getD 1 0
            signal := supertrendSignalAt
              (fun j => (stAt (closesToBars closes) 10 3 j).direction) 1
            atr := some (atrAt (closesToBars closes) 14 1) } :=
        simDataBars_getD closes 10 3 1 (by omega)
      have h := barStep_entry_long
        { defaultParams with risk_management_enabled := false } r dyn
        (simDataBars closes 10 3) 1 (clock 1) (initLoopState C f r)
        (atrAt (closesToBars closes) 14 1) rfl rfl
        (by rw [hbar]; exact hsig.2 1 (by omega) (by omega))
        (by rw [hbar])
        (by rw [hbar]; exact hpos 1 (by omega))
        (c8_entry_size_pos closes C f r dyn hn hpos hC hf hr)
      refine ⟨h.1, h.2.1, h.2.2.2.1, ?_, h.2.2.2.2.1, h.2.2.2.2.2.2.1, h.2.2.2.2.2.2.2⟩
      rw [h.2.2.1, hbar]
    · obtain ⟨ih1, ih2, ih3, ih4, ih5, ih6, ih7⟩ := ih (by omega) (by omega)
      have hbar : (simDataBars closes 10 3).getD (m + 1) default =
          { close := closes.getD (m + 1) 0
            signal := supertrendSignalAt
              (fun j => (stAt (closesToBars closes) 10 3 j).direction) (m + 1)
            atr := some (atrAt (closesToBars closes) 14 (m + 1)) } :=
        simDataBars_getD closes 10 3 (m + 1) (by omega)
      have h := barStep_hold_long
        { defaultParams with risk_management_enabled := false } r dyn
        (simDataBars closes 10 3) (m + 1) (clock (m + 1))
        (runUpTo { defaultParams with risk_management_enabled := false } C f r dyn
          (simDataBars closes 10 3) clock (fun _ => false) m)
        rfl ih1 ih2
        (by rw [hbar]; exact hsig.2 (m + 1) (by omega) (by omega))
      refine ⟨h.1, h.2.1, ?_, ?_, ?_, ?_, ?_⟩
      · rw [h.2.2.2.2.1]; exact ih3
      · rw [h.2.2.2.1]; exact ih4
      · rw [h.2.2.1]; exact ih5
      · rw [h.2.2.2.2.2.1]; exact ih6
      · rw [h.2.2.2.2.2.2.2]; exact ih7

/-- C8: for every strictly increasing positive price series of at least two
bars, run with the SuperTrend strategy and risk management disabled, the
SuperTrend direction is down on the seed row and up on every later row, the
signal is 0 on the seed row and 1 everywhere else, and the loop opens
exactly one position: a long entered at bar 1 — the first bar whose
direction is up — at that bar's close with positive size, which is still
open at the end of the data with an empty trade log (no exit of any kind
occurred). -/
theorem C8_theorem (closes : List ℚ) (C f r : ℚ) (dyn : Bool) (clock : ℕ → ℤ)
    (hn : 2 ≤ closes.length)
    (hpos : ∀ j, j < closes.length → 0 < closes.getD j 0)
    (hmono : ∀ j, j + 1 < closes.length → closes.getD j 0 < closes.getD (j + 1) 0)
    (hC : 0 < C) (hf : 0 < f) (hr : 0 < r) :
    (stAt (closesToBars closes) 10 3 0).direction = -1 ∧
    (∀ i, 1 ≤ i → i < closes.length →
      (stAt (closesToBars closes) 10 3 i).direction = 1) ∧
    ((simDataBars closes 10 3).getD 0 default).signal = 0 ∧
    (∀ i, 1 ≤ i → i < closes.length →
      ((simDataBars closes 10 3).getD i default).signal = 1) ∧
    (supertrendRun closes C f r dyn clock).in_position = true ∧
    (supertrendRun closes C f r dyn clock).position_type = 1 ∧
    (supertrendRun closes C f r dyn clock).entry_index = 1 ∧
    (supertrendRun closes C f r dyn clock).entry_price = closes.getD 1 0 ∧
    0 < (supertrendRun closes C f r dyn clock).position_size ∧
    (supertrendRun closes C f r dyn clock).trade_history = [] := by
  have hrun : supertrendRun closes C f r dyn clock =
      runUpTo { defaultParams with risk_management_enabled := false } C f r dyn
        (simDataBars closes 10 3) clock (fun _ => false) (closes.length - 1) := by
    unfold supertrendRun runLoop
    rw [simDataBars_length]
  have hinv := c8_loop_inv closes C f r dyn clock hn hpos hmono hC hf hr
    (closes.length - 1) (by omega) (le_refl _)
  have hsig := st_signal closes hn hpos hmono
  refine ⟨by rw [stAt_zero_closes closes], ?_, ?_, ?_, ?_, ?_, ?_, ?_, ?_, ?_⟩
  · intro i h1 h2
    exact (st_dir_inv closes hpos hmono i h1 h2).1
  · rw [simDataBars_getD closes 10 3 0 (by omega)]
    exact hsig.1
  · intro i h1 h2
    rw [simDataBars_getD closes 10 3 i h2]
    exact hsig.2 i h1 h2
  · rw [hrun]; exact hinv.1
  · rw [hrun]; exact hinv.2.1
  · rw [hrun]; exact hinv.2.2.1
  · rw [hrun]; exact hinv.2.2.2.1
  · rw [hrun, hinv.2.2.2.2.1]
    exact c8_entry_size_pos closes C f r dyn hn hpos hC hf hr
  · rw [hrun]; exact hinv.2.2.2.2.2.2

/-- Witness for C8_theorem on the series 1, 2, 3. -/
theorem C8_theorem_witness :
    (supertrendRun [1, 2, 3] 100000 (1/10) (1/100) false (fun _ => 0)).in_position = true ∧
    (supertrendRun [1, 2, 3] 100000 (1/10) (1/100) false (fun _ => 0)).position_type = 1 ∧
    (supertrendRun [1, 2, 3] 100000 (1/10) (1/100) false (fun _ => 0)).entry_index = 1 ∧
    (supertrendRun [1, 2, 3] 100000 (1/10) (1/100) false (fun _ => 0)).entry_price =
      ([1, 2, 3] : List ℚ).getD 1 0 ∧
    0 < (supertrendRun [1, 2, 3] 100000 (1/10) (1/100) false (fun _ => 0)).position_size ∧
    (supertrendRun [1, 2, 3] 100000 (1/10) (1/100) false (fun _ => 0)).trade_history = [] := by
  have h := C8_theorem [1, 2, 3] 100000 (1/10) (1/100) false (fun _ => 0)
    (by norm_num)
    (by
      intro j hj
      have hj3 : j < 3 := by simpa using hj
      interval_cases j <;> norm_num [List.getD])
    (by
      intro j hj
      have hj2 : j < 2 := by
        have : j + 1 < 3 := by simpa using hj
        omega
      interval_cases j <;> norm_num [List.getD])
    (by norm_num) (by norm_num) (by norm_num)
  exact ⟨h.2.2.2.2.1, h.2.2.2.2.2.1, h.2.2.2.2.2.2.1, h.2.2.2.2.2.2.2.1,
    h.2.2.2.2.2.2.2.2.1, h.2.2.2.2.2.2.2.2.2⟩
